import Mathlib

/-!
Verification of the topology-normalization and deployment-identity engine
(`pkg/parser/normalizers.go` of the clickhouse-operator repository).

The Go code is shallowly embedded: the in-place mutation of the installation
tree becomes explicit state passing (each normalizer returns the updated value
together with the threaded `NamedNumber` usage counter), Go maps become
association lists (`Zone.MatchLabels`, whose keys are distinct in any map
produced by deserialization) or total functions with default 0 (`NamedNumber`,
matching Go's zero-value reads of absent keys), and the non-negative Go `int`
counters are modelled as `Nat` (the engine assumes upstream-validated input;
negative counts would make the Go `make` builtin panic and are out of scope).

The struct definitions of the external `chiv1` API package and a handful of
package constants are not part of the sources; they are modelled from the
specification, as marked on each such definition.
-/

/-- Modelled from the spec: layout type tag for the count-based layout variant
(`Layout.Type ∈ {Standard, Advanced}`); the constant itself is declared
outside the provided sources. -/
def clusterLayoutTypeStandard : String := "Standard"

/-- Modelled from the spec: layout type tag for the explicit-shard layout
variant; the constant itself is declared outside the provided sources. -/
def clusterLayoutTypeAdvanced : String := "Advanced"

/-- Modelled from the spec: shard definition-type tag selecting the
count-based replica expansion (`DefinitionType ∈ {ReplicasCount, Replicas}`);
declared outside the provided sources. -/
def shardDefinitionTypeReplicasCount : String := "ReplicasCount"

/-- Modelled from the spec: the single sentinel value that marks internal
replication as disabled on an Advanced-layout shard; declared outside the
provided sources. -/
def shardInternalReplicationDisabled : String := "Disabled"

/-- Modelled from the spec: the canonical true value of the string-encoded
boolean flags; declared outside the provided sources. -/
def stringTrue : String := "true"

/-- Modelled from the spec: the canonical false value of the string-encoded
boolean flags; declared outside the provided sources. -/
def stringFalse : String := "false"

/-- Modelled from the spec: the fixed default deployment scenario tag;
declared outside the provided sources. -/
def deploymentScenarioDefault : String := "Default"

/-- Modelled from the spec: `Zone` is a label-selector-like structure mapping
label key to required value.  The Go `map[string]string` is embedded as an
association list; maps deserialized from input have distinct keys. -/
structure ChiDeploymentZone where
  MatchLabels : List (String × String)
deriving DecidableEq

/-- Modelled from the spec: the deployment descriptor, the unit of placement
identity, with the two derived fields `Fingerprint` and `Index` populated
only by the engine. -/
structure ChiDeployment where
  PodTemplate : String
  VolumeClaimTemplate : String
  Zone : ChiDeploymentZone
  Scenario : String
  Fingerprint : String
  Index : Nat
deriving DecidableEq

/-- Modelled from the spec: a replica holds its deployment descriptor. -/
structure ChiClusterLayoutShardReplica where
  Deployment : ChiDeployment
deriving DecidableEq

/-- Modelled from the spec: a shard of a cluster layout. -/
structure ChiClusterLayoutShard where
  DefinitionType : String
  ReplicasCount : Nat
  InternalReplication : String
  Deployment : ChiDeployment
  Replicas : List ChiClusterLayoutShardReplica
deriving DecidableEq

/-- Modelled from the spec: a cluster layout, tagged by `Type`. -/
structure ChiClusterLayout where
  «Type» : String
  ShardsCount : Nat
  ReplicasCount : Nat
  Shards : List ChiClusterLayoutShard
deriving DecidableEq

/-- Modelled from the spec: a cluster with its layout and the deployment
descriptor used as inheritance source for its shards. -/
structure ChiCluster where
  Name : String
  Layout : ChiClusterLayout
  Deployment : ChiDeployment
deriving DecidableEq

/-- Modelled from the spec: the global defaults of an installation. -/
structure ChiDefaults where
  ReplicasUseFQDN : Int
  Deployment : ChiDeployment
deriving DecidableEq

/-- Modelled from the spec: the configuration section holding the ordered
cluster sequence. -/
structure ChiConfiguration where
  Clusters : List ChiCluster
deriving DecidableEq

/-- Modelled from the spec: the spec section of an installation. -/
structure ChiSpec where
  Defaults : ChiDefaults
  Configuration : ChiConfiguration
deriving DecidableEq

/-- Modelled from the spec: the root installation object; `Namespace` and
`Name` are the identity fields used as hashing salt. -/
structure ClickHouseInstallation where
  Namespace : String
  Name : String
  Spec : ChiSpec
deriving DecidableEq

/-- The Go zero value of `ChiDeployment`, as produced by `make`. -/
def emptyDeployment : ChiDeployment :=
  { PodTemplate := "", VolumeClaimTemplate := "", Zone := { MatchLabels := [] },
    Scenario := "", Fingerprint := "", Index := 0 }

/-- The Go zero value of a replica, as produced by `make`. -/
def emptyReplica : ChiClusterLayoutShardReplica := { Deployment := emptyDeployment }

/-- The Go zero value of a shard, as produced by `make`. -/
def emptyShard : ChiClusterLayoutShard :=
  { DefinitionType := "", ReplicasCount := 0, InternalReplication := "",
    Deployment := emptyDeployment, Replicas := [] }

/-- The Go zero value of a cluster (used only as a `getD` default). -/
def emptyCluster : ChiCluster :=
  { Name := "",
    Layout := { «Type» := "", ShardsCount := 0, ReplicasCount := 0, Shards := [] },
    Deployment := emptyDeployment }

/-- Modelled from the spec: `NamedNumber` (declared outside the provided
sources) maps a fingerprint to a usage count; a Go map read of an absent key
yields the zero value, so it is embedded as a total function with default 0. -/
abbrev NamedNumber := String → Nat

/-- The empty `NamedNumber`: every fingerprint has usage 0. -/
def NamedNumber.empty : NamedNumber := fun _ => 0

/-- `m[k]++` on a `NamedNumber`. -/
def NamedNumber.incr (m : NamedNumber) (k : String) : NamedNumber :=
  fun x => if x = k then m x + 1 else m x

/-- Modelled from the spec: `mergeAndReplaceWithBiggerValues` (declared
outside the provided sources) combines usage maps by taking, per fingerprint,
the maximum count. -/
def NamedNumber.mergeAndReplaceWithBiggerValues (dst src : NamedNumber) : NamedNumber :=
  fun k => max (dst k) (src k)

/-! ### SHA-1 and hex encoding

`deploymentGenerateFingerprint` hashes with `crypto/sha1` and renders the
digest with `encoding/hex`.  Both are embedded here over byte lists (bytes as
`Nat` below 256, 32-bit words as `Nat` reduced modulo `2 ^ 32`). -/

/-- Truncate to a 32-bit word. -/
def w32 (n : Nat) : Nat := n % 2 ^ 32

/-- Rotate a 32-bit word left by `n` bits (`x < 2 ^ 32` at every use). -/
def rotl32 (x n : Nat) : Nat := w32 (x * 2 ^ n) + x / 2 ^ (32 - n)

/-- UTF-8 encoding of one character, as Go's `[]byte(string)` produces it. -/
def utf8EncodeChar (c : Char) : List Nat :=
  let n := c.toNat
  if n < 0x80 then [n]
  else if n < 0x800 then [0xC0 + n / 0x40, 0x80 + n % 0x40]
  else if n < 0x10000 then
    [0xE0 + n / 0x1000, 0x80 + n / 0x40 % 0x40, 0x80 + n % 0x40]
  else
    [0xF0 + n / 0x40000, 0x80 + n / 0x1000 % 0x40, 0x80 + n / 0x40 % 0x40, 0x80 + n % 0x40]

/-- The UTF-8 bytes of a string, as Go's `[]byte(string)`. -/
def stringToBytes (s : String) : List Nat := s.data.flatMap utf8EncodeChar

/-- Big-endian byte rendering of `n` into `width` bytes. -/
def natToBytesBE (width n : Nat) : List Nat :=
  (List.range width).map (fun i => n / 2 ^ (8 * (width - 1 - i)) % 256)

/-- SHA-1 padding: append `0x80`, zero bytes up to 56 mod 64, then the
message bit length as 8 big-endian bytes. -/
def sha1Pad (msg : List Nat) : List Nat :=
  let zeros := (120 - (msg.length + 1) % 64) % 64
  msg ++ [0x80] ++ List.replicate zeros 0 ++ natToBytesBE 8 (msg.length * 8)

/-- The 16 big-endian 32-bit words of one 64-byte block. -/
def sha1BlockWords (block : List Nat) : List Nat :=
  (List.range 16).map (fun i =>
    block.getD (4 * i) 0 * 0x1000000 + block.getD (4 * i + 1) 0 * 0x10000 +
    block.getD (4 * i + 2) 0 * 0x100 + block.getD (4 * i + 3) 0)

/-- Extend the 16-word schedule by `n` further words. -/
def sha1ExtendW : List Nat → Nat → List Nat
  | ws, 0 => ws
  | ws, n + 1 =>
    let m := ws.length
    let w := rotl32 (ws.getD (m - 3) 0 ^^^ ws.getD (m - 8) 0 ^^^
                     ws.getD (m - 14) 0 ^^^ ws.getD (m - 16) 0) 1
    sha1ExtendW (ws ++ [w]) n

/-- The round function `f` of SHA-1. -/
def sha1F (t b c d : Nat) : Nat :=
  if t < 20 then (b &&& c) ||| ((b ^^^ 0xFFFFFFFF) &&& d)
  else if t < 40 then b ^^^ c ^^^ d
  else if t < 60 then (b &&& c) ||| (b &&& d) ||| (c &&& d)
  else b ^^^ c ^^^ d

/-- The round constant `K` of SHA-1. -/
def sha1K (t : Nat) : Nat :=
  if t < 20 then 0x5A827999
  else if t < 40 then 0x6ED9EBA1
  else if t < 60 then 0x8F1BBCDC
  else 0xCA62C1D6

/-- One SHA-1 round on the state `(a, b, c, d, e)`. -/
def sha1Round (W : List Nat) (st : Nat × Nat × Nat × Nat × Nat) (t : Nat) :
    Nat × Nat × Nat × Nat × Nat :=
  let (a, b, c, d, e) := st
  (w32 (rotl32 a 5 + sha1F t b c d + e + sha1K t + W.getD t 0),
   a, rotl32 b 30, c, d)

/-- Process one 64-byte block. -/
def sha1Block (h : Nat × Nat × Nat × Nat × Nat) (block : List Nat) :
    Nat × Nat × Nat × Nat × Nat :=
  let W := sha1ExtendW (sha1BlockWords block) 64
  let (a, b, c, d, e) := (List.range 80).foldl (sha1Round W) h
  (w32 (h.1 + a), w32 (h.2.1 + b), w32 (h.2.2.1 + c), w32 (h.2.2.2.1 + d), w32 (h.2.2.2.2 + e))

/-- The SHA-1 digest of a byte list, as 20 bytes. -/
def sha1Bytes (msg : List Nat) : List Nat :=
  let padded := sha1Pad msg
  let init : Nat × Nat × Nat × Nat × Nat :=
    (0x67452301, 0xEFCDAB89, 0x98BADCFE, 0x10325476, 0xC3D2E1F0)
  let (h0, h1, h2, h3, h4) :=
    (List.range (padded.length / 64)).foldl
      (fun h i => sha1Block h ((padded.drop (64 * i)).take 64)) init
  natToBytesBE 4 h0 ++ natToBytesBE 4 h1 ++ natToBytesBE 4 h2 ++
    natToBytesBE 4 h3 ++ natToBytesBE 4 h4

/-- One lowercase hexadecimal digit, as `encoding/hex` renders it. -/
def hexDigit (n : Nat) : Char :=
  if n < 10 then Char.ofNat (48 + n) else Char.ofNat (87 + n)

/-- Lowercase hex encoding of a byte list, as Go's `hex.EncodeToString`. -/
def hexEncodeToString (bs : List Nat) : String :=
  String.mk (bs.flatMap (fun b => [hexDigit (b / 16), hexDigit (b % 16)]))

/-- `hex.EncodeToString(sha1.Sum(bytes))` of a string's UTF-8 bytes. -/
def sha1hex (s : String) : String := hexEncodeToString (sha1Bytes (stringToBytes s))

/-! ### The normalizers (`pkg/parser/normalizers.go`) -/

/-- `deploymentGenerateString` creates the canonical string representation of
a deployment: `fmt.Sprintf` of the three scalar fields with trailing `::`,
then each zone label rendered `key=value` over the lexicographically sorted
keys, all joined by `::` (`normalizers.go` lines 197-216).  Go's
`sort.Strings` is embedded as insertion sort by `≤`. -/
def deploymentGenerateString (d : ChiDeployment) : String :=
  let keys := (d.Zone.MatchLabels.map Prod.fst).insertionSort (fun a b => a ≤ b)
  let a := (d.PodTemplate ++ "::" ++ d.VolumeClaimTemplate ++ "::" ++ d.Scenario ++ "::") ::
    keys.map (fun key => key ++ "=" ++ ((d.Zone.MatchLabels.lookup key).getD ("")))
  String.intercalate ("::") a

/-- `deploymentGenerateFingerprint`: the hex SHA-1 digest of
`chi.Namespace + chi.Name + deploymentGenerateString(d)`
(`normalizers.go` lines 222-226). -/
def deploymentGenerateFingerprint (chi : ClickHouseInstallation) (d : ChiDeployment) : String :=
  sha1hex (chi.Namespace ++ chi.Name ++ deploymentGenerateString d)

/-- `deploymentGenerateID`: the last 10 characters of the fingerprint
(`normalizers.go` lines 235-239). -/
def deploymentGenerateID (fingerprint : String) : String :=
  String.mk (fingerprint.data.drop (fingerprint.length - 10))

/-- `generateFullDeploymentID`: `fmt.Sprintf("%s-%d", id, index)`
(`normalizers.go` lines 246-251). -/
def generateFullDeploymentID (replica : ChiClusterLayoutShardReplica) : String :=
  deploymentGenerateID replica.Deployment.Fingerprint ++ "-" ++
    toString replica.Deployment.Index

/-- `zoneCopyFrom` copies the source label map into the destination zone; in
the pure embedding the deep copy is a value copy (`normalizers.go` lines
301-311).  The `nil` source guard is dropped: every call site passes a value. -/
def zoneCopyFrom (dst src : ChiDeploymentZone) : ChiDeploymentZone :=
  { dst with MatchLabels := src.MatchLabels }

/-- `deploymentMergeFrom` fills each empty field of `dst` from `src`, the
zone label map all-or-nothing (`normalizers.go` lines 275-298).  The `nil`
source guard is dropped: every call site passes a value. -/
def deploymentMergeFrom (dst src : ChiDeployment) : ChiDeployment :=
  let dst := if dst.PodTemplate = "" then { dst with PodTemplate := src.PodTemplate } else dst
  let dst := if dst.VolumeClaimTemplate = "" then
    { dst with VolumeClaimTemplate := src.VolumeClaimTemplate } else dst
  let dst := if dst.Zone.MatchLabels.length = 0 then
    { dst with Zone := zoneCopyFrom dst.Zone src.Zone } else dst
  if dst.Scenario = "" then { dst with Scenario := src.Scenario } else dst

/-- The body of the replica loop of
`normalizeSpecConfigurationClustersLayoutShardsReplicas` (`normalizers.go`
lines 149-166): merge the shard deployment into the replica, fingerprint it,
bump the per-cluster usage counter and record fingerprint and index. -/
def normalizeReplicaOne (chi : ClickHouseInstallation) (shardDep : ChiDeployment)
    (replica : ChiClusterLayoutShardReplica) (counter : NamedNumber) :
    ChiClusterLayoutShardReplica × NamedNumber :=
  let dep := deploymentMergeFrom replica.Deployment shardDep
  let fingerprint := deploymentGenerateFingerprint chi dep
  let counter := counter.incr fingerprint
  let index := counter fingerprint - 1
  ({ replica with Deployment := { dep with Fingerprint := fingerprint, Index := index } },
   counter)

/-- The replica loop of
`normalizeSpecConfigurationClustersLayoutShardsReplicas`, threading the
counter left to right over the replica sequence. -/
def normalizeReplicasGo (chi : ClickHouseInstallation) (shardDep : ChiDeployment) :
    List ChiClusterLayoutShardReplica → NamedNumber →
    List ChiClusterLayoutShardReplica × NamedNumber
  | [], counter => ([], counter)
  | r :: rs, counter =>
    let p := normalizeReplicaOne chi shardDep r counter
    let q := normalizeReplicasGo chi shardDep rs p.2
    (p.1 :: q.1, q.2)

/-- `normalizeSpecConfigurationClustersLayoutShardsReplicas`
(`normalizers.go` lines 143-167).  The Go loop iterates
`replicaIndex < shard.ReplicasCount` over `shard.Replicas`; every caller
establishes `shard.ReplicasCount = shard.Replicas.length` immediately before
the call, so the loop visits exactly the elements of `shard.Replicas` in
order. -/
def normalizeSpecConfigurationClustersLayoutShardsReplicas
    (chi : ClickHouseInstallation) (shard : ChiClusterLayoutShard)
    (counter : NamedNumber) : ChiClusterLayoutShard × NamedNumber :=
  let p := normalizeReplicasGo chi shard.Deployment shard.Replicas counter
  ({ shard with Replicas := p.1 }, p.2)

/-- `normalizeClusterStandardLayoutCounts` (`normalizers.go` lines 170-178):
zero shard/replica counts default to 1. -/
def normalizeClusterStandardLayoutCounts (layout : ChiClusterLayout) : ChiClusterLayout :=
  let layout := if layout.ShardsCount = 0 then { layout with ShardsCount := 1 } else layout
  if layout.ReplicasCount = 0 then { layout with ReplicasCount := 1 } else layout

/-- `normalizeClusterAdvancedLayoutShardsInternalReplication`
(`normalizers.go` lines 182-190): the disabled sentinel becomes the canonical
false value, everything else the canonical true value. -/
def normalizeClusterAdvancedLayoutShardsInternalReplication
    (shard : ChiClusterLayoutShard) : ChiClusterLayoutShard :=
  if shard.InternalReplication = shardInternalReplicationDisabled then
    { shard with InternalReplication := stringFalse }
  else
    { shard with InternalReplication := stringTrue }

/-- The body of the Standard-branch shard loop of
`normalizeSpecConfigurationClustersCluster` (`normalizers.go` lines 71-84):
each generated shard starts from the zero value, inherits the layout's
`ReplicasCount`, gets internal replication forced on, and has its replicas
freshly allocated and then normalized. -/
def normalizeStandardShard (chi : ClickHouseInstallation) (layout : ChiClusterLayout)
    (counter : NamedNumber) : ChiClusterLayoutShard × NamedNumber :=
  let shard := { emptyShard with
    ReplicasCount := layout.ReplicasCount,
    InternalReplication := stringTrue,
    Replicas := List.replicate layout.ReplicasCount emptyReplica }
  normalizeSpecConfigurationClustersLayoutShardsReplicas chi shard counter

/-- The Standard-branch shard loop (`shardIndex < ShardsCount`), threading
the counter; every iteration builds its shard from scratch. -/
def buildStandardShardsGo (chi : ClickHouseInstallation) (layout : ChiClusterLayout) :
    Nat → NamedNumber → List ChiClusterLayoutShard × NamedNumber
  | 0, counter => ([], counter)
  | n + 1, counter =>
    let p := normalizeStandardShard chi layout counter
    let q := buildStandardShardsGo chi layout n p.2
    (p.1 :: q.1, q.2)

/-- The body of the Advanced-branch shard loop of
`normalizeSpecConfigurationClustersCluster` (`normalizers.go` lines 90-137):
resolve internal replication, inherit the cluster deployment, then branch on
`DefinitionType` (fresh allocation of `ReplicasCount` replicas, or trusting
the supplied replica list and deriving the count from its length). -/
def normalizeAdvancedShard (chi : ClickHouseInstallation) (clusterDep : ChiDeployment)
    (shard : ChiClusterLayoutShard) (counter : NamedNumber) :
    ChiClusterLayoutShard × NamedNumber :=
  let shard := normalizeClusterAdvancedLayoutShardsInternalReplication shard
  let shard := { shard with Deployment := deploymentMergeFrom shard.Deployment clusterDep }
  if shard.DefinitionType = shardDefinitionTypeReplicasCount then
    let shard := { shard with Replicas := List.replicate shard.ReplicasCount emptyReplica }
    normalizeSpecConfigurationClustersLayoutShardsReplicas chi shard counter
  else
    let shard := { shard with ReplicasCount := shard.Replicas.length }
    normalizeSpecConfigurationClustersLayoutShardsReplicas chi shard counter

/-- The Advanced-branch shard loop, threading the counter over the supplied
shard sequence in stored order. -/
def normalizeAdvancedShardsGo (chi : ClickHouseInstallation) (clusterDep : ChiDeployment) :
    List ChiClusterLayoutShard → NamedNumber →
    List ChiClusterLayoutShard × NamedNumber
  | [], counter => ([], counter)
  | s :: ss, counter =>
    let p := normalizeAdvancedShard chi clusterDep s counter
    let q := normalizeAdvancedShardsGo chi clusterDep ss p.2
    (p.1 :: q.1, q.2)

/-- `normalizeSpecConfigurationClustersCluster` (`normalizers.go` lines
49-141): merge the installation default deployment into the cluster, then
expand the layout by its type; a layout of unknown type is left untouched
(the Go `switch` has no default case).  Returns the normalized cluster and
its per-cluster usage counter. -/
def normalizeSpecConfigurationClustersCluster (chi : ClickHouseInstallation)
    (cluster : ChiCluster) : ChiCluster × NamedNumber :=
  let cluster := { cluster with
    Deployment := deploymentMergeFrom cluster.Deployment chi.Spec.Defaults.Deployment }
  if cluster.Layout.Type = clusterLayoutTypeStandard then
    let layout := normalizeClusterStandardLayoutCounts cluster.Layout
    let p := buildStandardShardsGo chi layout layout.ShardsCount NamedNumber.empty
    ({ cluster with Layout := { layout with Shards := p.1 } }, p.2)
  else if cluster.Layout.Type = clusterLayoutTypeAdvanced then
    let p := normalizeAdvancedShardsGo chi cluster.Deployment cluster.Layout.Shards
      NamedNumber.empty
    ({ cluster with Layout := { cluster.Layout with Shards := p.1 } }, p.2)
  else
    (cluster, NamedNumber.empty)

/-- `normalizeSpecDefaultsReplicasUseFQDN` (`normalizers.go` lines 254-264):
collapse the flag to 1 or 0. -/
def normalizeSpecDefaultsReplicasUseFQDN (chi : ClickHouseInstallation) :
    ClickHouseInstallation :=
  if chi.Spec.Defaults.ReplicasUseFQDN = 1 then chi
  else { chi with Spec.Defaults.ReplicasUseFQDN := 0 }

/-- `normalizeSpecDefaultsDeploymentScenario` (`normalizers.go` lines
267-272): an empty default scenario becomes the fixed default tag. -/
def normalizeSpecDefaultsDeploymentScenario (chi : ClickHouseInstallation) :
    ClickHouseInstallation :=
  if chi.Spec.Defaults.Deployment.Scenario = "" then
    { chi with Spec.Defaults.Deployment.Scenario := deploymentScenarioDefault }
  else chi

/-- The cluster loop of `NormalizeCHI` (`normalizers.go` lines 38-43):
normalize each cluster in order and accumulate the per-cluster usage
counters with `mergeAndReplaceWithBiggerValues`.  Each loop iteration reads
only the loop-invariant parts of `chi` (`Namespace`, `Name`,
`Spec.Defaults.Deployment`), so the in-place mutation of the Go cluster
array is embedded as an independent pass per cluster. -/
def normalizeClustersGo (chi : ClickHouseInstallation) :
    List ChiCluster → NamedNumber → List ChiCluster × NamedNumber
  | [], acc => ([], acc)
  | c :: cs, acc =>
    let p := normalizeSpecConfigurationClustersCluster chi c
    let q := normalizeClustersGo chi cs (acc.mergeAndReplaceWithBiggerValues p.2)
    (p.1 :: q.1, q.2)

/-- `NormalizeCHI` (`normalizers.go` lines 28-46): apply the defaults, then
normalize every cluster, returning the normalized installation together with
the installation-wide usage map. -/
def NormalizeCHI (chi : ClickHouseInstallation) :
    ClickHouseInstallation × NamedNumber :=
  let chi := normalizeSpecDefaultsReplicasUseFQDN chi
  let chi := normalizeSpecDefaultsDeploymentScenario chi
  let p := normalizeClustersGo chi chi.Spec.Configuration.Clusters NamedNumber.empty
  ({ chi with Spec.Configuration.Clusters := p.1 }, p.2)

/-! ### Spec-side and derived definitions used by the claims -/

/-- The canonical-string formula in the spec's words (claim C5): the three
scalar fields each followed by `::`, then directly the sorted zone labels
rendered `key=value` and joined by `::` — with no additional separator
between the fixed prefix and the first label. -/
def deploymentGenerateStringSpec (d : ChiDeployment) : String :=
  let keys := (d.Zone.MatchLabels.map Prod.fst).insertionSort (fun a b => a ≤ b)
  d.PodTemplate ++ "::" ++ d.VolumeClaimTemplate ++ "::" ++ d.Scenario ++ "::" ++
    String.intercalate ("::")
      (keys.map (fun key => key ++ "=" ++ ((d.Zone.MatchLabels.lookup key).getD (""))))

/-- The amended canonical-string formula: the fixed prefix, then for each
zone label — the labels themselves sorted by key — a `::` separator followed
by `key=value`.  This is an independent construction (it sorts the label
pairs and never performs a map lookup), to be proved equal to the code's
canonical string for label maps with distinct keys. -/
def deploymentGenerateStringAmended (d : ChiDeployment) : String :=
  let pairs := d.Zone.MatchLabels.insertionSort (fun a b => a.1 ≤ b.1)
  d.PodTemplate ++ "::" ++ d.VolumeClaimTemplate ++ "::" ++ d.Scenario ++ "::" ++
    String.join (pairs.map (fun p => "::" ++ p.1 ++ "=" ++ p.2))

/-- All replicas of a cluster in visitation order: shard-major,
replica-minor, both in stored sequence order. -/
def clusterReplicas (c : ChiCluster) : List ChiClusterLayoutShardReplica :=
  c.Layout.Shards.flatMap (fun s => s.Replicas)

/-- The indices of the replicas carrying fingerprint `F`, in visitation
order. -/
def indicesOfFingerprint (F : String) (rs : List ChiClusterLayoutShardReplica) : List Nat :=
  (rs.filter (fun r => r.Deployment.Fingerprint == F)).map (fun r => r.Deployment.Index)

/-- The fingerprints of a replica sequence, in visitation order. -/
def fingerprintsOf (rs : List ChiClusterLayoutShardReplica) : List String :=
  rs.map (fun r => r.Deployment.Fingerprint)

/-- The `(Fingerprint, Index)` pairs of every replica of an installation,
nested cluster/shard/replica in stored order. -/
def chiFingerprintsIndices (chi : ClickHouseInstallation) :
    List (List (List (String × Nat))) :=
  chi.Spec.Configuration.Clusters.map (fun c =>
    c.Layout.Shards.map (fun s =>
      s.Replicas.map (fun r => (r.Deployment.Fingerprint, r.Deployment.Index))))

/-- The installation after the two defaulting passes of `NormalizeCHI`. -/
def defaultedCHI (chi : ClickHouseInstallation) : ClickHouseInstallation :=
  normalizeSpecDefaultsDeploymentScenario (normalizeSpecDefaultsReplicasUseFQDN chi)

/-- The per-cluster usage counters, cluster by cluster, as `NormalizeCHI`
computes them. -/
def clusterUsages (chi : ClickHouseInstallation) : List NamedNumber :=
  (defaultedCHI chi).Spec.Configuration.Clusters.map (fun c =>
    (normalizeSpecConfigurationClustersCluster (defaultedCHI chi) c).2)

/-! ### Concrete inputs for counterexamples and witnesses -/

/-- A shard whose stored `InternalReplication` is neither a canonical value
nor the disabled sentinel. -/
def shardUnknownIR : ChiClusterLayoutShard :=
  { emptyShard with InternalReplication := "garbage" }

/-- A deployment with one zone label (counterexample input for the canonical
string formula). -/
def deploymentC5 : ChiDeployment :=
  { emptyDeployment with
    PodTemplate := "pt", VolumeClaimTemplate := "vct",
    Scenario := "sc", Zone := { MatchLabels := [("zone", "z1")] } }

/-- First of two distinct deployments whose canonical strings coincide: the
`::` separator occurs inside `PodTemplate`. -/
def deploymentC7a : ChiDeployment :=
  { emptyDeployment with
    PodTemplate := "a::b", VolumeClaimTemplate := "c", Scenario := "sc" }

/-- Second of the pair: the same characters split differently between
`PodTemplate` and `VolumeClaimTemplate`. -/
def deploymentC7b : ChiDeployment :=
  { emptyDeployment with
    PodTemplate := "a", VolumeClaimTemplate := "b::c", Scenario := "sc" }

/-- An explicit-replica shard carrying the two colliding deployments. -/
def shardC7 : ChiClusterLayoutShard :=
  { emptyShard with
    DefinitionType := "Replicas",
    Replicas := [{ Deployment := deploymentC7a }, { Deployment := deploymentC7b }] }

/-- An Advanced cluster holding that shard. -/
def advancedClusterC7 : ChiCluster :=
  { emptyCluster with Layout :=
    { «Type» := clusterLayoutTypeAdvanced, ShardsCount := 0, ReplicasCount := 0,
      Shards := [shardC7] } }

/-- An installation with the two colliding replicas in one cluster. -/
def chiC7 : ClickHouseInstallation :=
  { Namespace := "ns", Name := "chi",
    Spec := { Defaults := { ReplicasUseFQDN := 0, Deployment := emptyDeployment },
              Configuration := { Clusters := [advancedClusterC7] } } }

/-- A Standard cluster with both counts left at 0. -/
def standardClusterZero : ChiCluster :=
  { emptyCluster with Layout :=
    { «Type» := clusterLayoutTypeStandard, ShardsCount := 0, ReplicasCount := 0,
      Shards := [] } }

/-- An installation with two identical Standard clusters; its two replicas
resolve to identical deployments in different clusters. -/
def chiTwoClusters : ClickHouseInstallation :=
  { Namespace := "ns", Name := "chi",
    Spec := { Defaults := { ReplicasUseFQDN := 0, Deployment := emptyDeployment },
              Configuration := { Clusters := [standardClusterZero, standardClusterZero] } } }

/-- A count-defined Advanced shard with `ReplicasCount = 0` and a
pre-existing replica that normalization must discard. -/
def shardC10 : ChiClusterLayoutShard :=
  { emptyShard with
    DefinitionType := shardDefinitionTypeReplicasCount,
    ReplicasCount := 0, Replicas := [emptyReplica] }

/-- An arbitrary fingerprint value for witness statements. -/
def sampleFingerprint : String := "f"

/-- Two-label zone, one insertion order. -/
def zoneAB : ChiDeploymentZone := { MatchLabels := [("a", "1"), ("b", "2")] }

/-- The same two labels, the other insertion order. -/
def zoneBA : ChiDeploymentZone := { MatchLabels := [("b", "2"), ("a", "1")] }

/-- A deployment carrying `zoneAB`. -/
def deploymentAB : ChiDeployment := { emptyDeployment with PodTemplate := "pt", Zone := zoneAB }

/-- The same deployment carrying `zoneBA`. -/
def deploymentBA : ChiDeployment := { emptyDeployment with PodTemplate := "pt", Zone := zoneBA }

/-- Totality of the key ordering on label pairs. -/
instance keyOrderTotal : IsTotal (String × String) (fun a b => a.1 ≤ b.1) :=
  ⟨fun a b => le_total a.1 b.1⟩

/-- Transitivity of the key ordering on label pairs. -/
instance keyOrderTrans : IsTrans (String × String) (fun a b => a.1 ≤ b.1) :=
  ⟨fun _ _ _ h1 h2 => le_trans h1 h2⟩

/-- The deployment an Advanced-branch shard inherits: the cluster deployment
merged into the shard's own. -/
def advDep (cd : ChiDeployment) (s : ChiClusterLayoutShard) : ChiDeployment :=
  deploymentMergeFrom s.Deployment cd

/-- The replica sequence an Advanced-branch shard is normalized over: freshly
allocated for the count-based definition type, the stored sequence otherwise. -/
def advReplicas (s : ChiClusterLayoutShard) : List ChiClusterLayoutShardReplica :=
  if s.DefinitionType = shardDefinitionTypeReplicasCount then
    List.replicate s.ReplicasCount emptyReplica
  else s.Replicas

/-! ### Basic lemmas about the merge operation -/

/-- Normal form of `deploymentMergeFrom`: the four mergeable fields are
filled independently, the derived fields are kept from `dst`. -/
theorem deploymentMergeFrom_eq (dst src : ChiDeployment) :
    deploymentMergeFrom dst src =
      { PodTemplate := if dst.PodTemplate = "" then src.PodTemplate else dst.PodTemplate,
        VolumeClaimTemplate :=
          if dst.VolumeClaimTemplate = "" then src.VolumeClaimTemplate
          else dst.VolumeClaimTemplate,
        Zone :=
          if dst.Zone.MatchLabels.length = 0 then { MatchLabels := src.Zone.MatchLabels }
          else dst.Zone,
        Scenario := if dst.Scenario = "" then src.Scenario else dst.Scenario,
        Fingerprint := dst.Fingerprint,
        Index := dst.Index } := by
  by_cases h1 : dst.PodTemplate = "" <;>
    by_cases h2 : dst.VolumeClaimTemplate = "" <;>
      by_cases h3 : dst.Zone.MatchLabels.length = 0 <;>
        by_cases h4 : dst.Scenario = "" <;>
          simp [deploymentMergeFrom, zoneCopyFrom, h1, h2, h3, h4]

/-- Merging a second time from the same source changes nothing, even after
the derived fields have been overwritten in between. -/
theorem deploymentMergeFrom_fixpoint (d s : ChiDeployment) (f : String) (i : Nat) :
    deploymentMergeFrom
      { deploymentMergeFrom d s with Fingerprint := f, Index := i } s =
      { deploymentMergeFrom d s with Fingerprint := f, Index := i } := by
  simp only [deploymentMergeFrom_eq]
  by_cases h1 : d.PodTemplate = "" <;>
    by_cases h2 : d.VolumeClaimTemplate = "" <;>
      by_cases h3 : d.Zone.MatchLabels.length = 0 <;>
        by_cases h4 : d.Scenario = "" <;>
          simp [h1, h2, h3, h4]

/-- Merging twice from the same source is the same as merging once. -/
theorem deploymentMergeFrom_idem (d s : ChiDeployment) :
    deploymentMergeFrom (deploymentMergeFrom d s) s = deploymentMergeFrom d s := by
  have h := deploymentMergeFrom_fixpoint d s
    (deploymentMergeFrom d s).Fingerprint (deploymentMergeFrom d s).Index
  simpa using h

/-! ### Canonical string lemmas -/

/-- Folding string append from an accumulator is the accumulator followed by
the join. -/
theorem stringFoldlAppend (as : List String) :
    ∀ acc : String, as.foldl (fun r s => r ++ s) acc = acc ++ String.join as := by
  induction as with
  | nil => intro acc; simp [String.join]
  | cons a as ih =>
    intro acc
    have h1 : String.join (a :: as) = a ++ String.join as := by
      show (a :: as).foldl (fun r s => r ++ s) "" = a ++ String.join as
      rw [List.foldl_cons, ih, String.empty_append]
    rw [List.foldl_cons, ih, h1, String.append_assoc]

/-- The worker of `String.intercalate`: prefix plus separator-prefixed tail. -/
theorem intercalateGoEq (sep : String) (t : List String) :
    ∀ acc : String, String.intercalate.go acc sep t =
      acc ++ String.join (t.map (fun x => sep ++ x)) := by
  induction t with
  | nil => intro acc; simp [String.intercalate.go, String.join]
  | cons x xs ih =>
    intro acc
    show String.intercalate.go (acc ++ sep ++ x) sep xs = _
    rw [ih]
    have : String.join ((sep ++ x) :: xs.map (fun y => sep ++ y)) =
        (sep ++ x) ++ String.join (xs.map (fun y => sep ++ y)) := by
      show List.foldl (fun r s => r ++ s) "" _ = _
      rw [List.foldl_cons, stringFoldlAppend, String.empty_append]
    simp only [List.map_cons, this, String.append_assoc]

/-- `String.intercalate` on a nonempty list: head plus separator-prefixed
tail. -/
theorem intercalateCons (sep h : String) (t : List String) :
    String.intercalate sep (h :: t) = h ++ String.join (t.map (fun x => sep ++ x)) :=
  intercalateGoEq sep t h

/-- Normal form of the canonical string: the fixed prefix followed, for each
sorted zone key, by a `::` separator and the rendered label. -/
theorem deploymentGenerateString_eq (d : ChiDeployment) :
    deploymentGenerateString d =
      d.PodTemplate ++ "::" ++ d.VolumeClaimTemplate ++ "::" ++ d.Scenario ++ "::" ++
      String.join (((d.Zone.MatchLabels.map Prod.fst).insertionSort (fun a b => a ≤ b)).map
        (fun key => "::" ++ (key ++ "=" ++ ((d.Zone.MatchLabels.lookup key).getD (""))))) := by
  unfold deploymentGenerateString
  rw [intercalateCons, List.map_map]
  rfl

/-- Sorting two permuted key lists gives the same sorted list. -/
theorem sortedKeysEqOfPerm {k1 k2 : List String} (h : k1.Perm k2) :
    k1.insertionSort (fun a b => a ≤ b) = k2.insertionSort (fun a b => a ≤ b) :=
  List.eq_of_perm_of_sorted
    (((List.perm_insertionSort _ k1).trans h).trans (List.perm_insertionSort _ k2).symm)
    (List.sorted_insertionSort _ k1) (List.sorted_insertionSort _ k2)

/-- Association-list lookup is invariant under permutation when the keys are
distinct. -/
theorem lookupEqOfPerm {l1 l2 : List (String × String)} (h : l1.Perm l2)
    (nd : (l1.map Prod.fst).Nodup) (k : String) : l1.lookup k = l2.lookup k := by
  induction h with
  | nil => rfl
  | cons x h ih =>
    simp only [List.map_cons, List.nodup_cons] at nd
    simp only [List.lookup]
    cases hx : k == x.1 with
    | true => rfl
    | false => exact ih nd.2
  | swap x y l =>
    simp only [List.map_cons, List.nodup_cons, List.mem_cons] at nd
    have hxy : y.1 ≠ x.1 := fun e => nd.1 (Or.inl e)
    simp only [List.lookup]
    cases hy : k == y.1 with
    | true =>
      have hx : (k == x.1) = false := by
        cases hguess : k == x.1 with
        | true => exact absurd ((eq_of_beq hy).symm.trans (eq_of_beq hguess)) hxy
        | false => rfl
      rw [hx]
    | false =>
      cases hx : k == x.1 with
      | true => rfl
      | false => rfl
  | trans h1 h2 ih1 ih2 =>
    have nd2 : (_ : List (String × String)).map Prod.fst |>.Nodup := (h1.map Prod.fst).nodup nd
    exact (ih1 nd).trans (ih2 nd2)

/-- The canonical string depends only on the three scalar fields and the
zone label map. -/
theorem deploymentGenerateString_congr_eq (d1 d2 : ChiDeployment)
    (hPT : d1.PodTemplate = d2.PodTemplate)
    (hVCT : d1.VolumeClaimTemplate = d2.VolumeClaimTemplate)
    (hSc : d1.Scenario = d2.Scenario)
    (hZ : d1.Zone.MatchLabels = d2.Zone.MatchLabels) :
    deploymentGenerateString d1 = deploymentGenerateString d2 := by
  unfold deploymentGenerateString
  rw [hPT, hVCT, hSc, hZ]

/-- The canonical string is invariant under reordering the zone label map,
provided the keys are distinct: sorting makes the order immaterial. -/
theorem deploymentGenerateString_congr_perm (d1 d2 : ChiDeployment)
    (hPT : d1.PodTemplate = d2.PodTemplate)
    (hVCT : d1.VolumeClaimTemplate = d2.VolumeClaimTemplate)
    (hSc : d1.Scenario = d2.Scenario)
    (hZ : d1.Zone.MatchLabels.Perm d2.Zone.MatchLabels)
    (nd : (d1.Zone.MatchLabels.map Prod.fst).Nodup) :
    deploymentGenerateString d1 = deploymentGenerateString d2 := by
  rw [deploymentGenerateString_eq d1, deploymentGenerateString_eq d2,
    hPT, hVCT, hSc, sortedKeysEqOfPerm (hZ.map Prod.fst)]
  congr 2
  apply List.map_congr_left
  intro k _
  rw [lookupEqOfPerm hZ nd k]

/-- The fingerprint depends only on the installation identity and the
canonical string. -/
theorem deploymentGenerateFingerprint_congr (chi1 chi2 : ClickHouseInstallation)
    (d1 d2 : ChiDeployment) (hNs : chi1.Namespace = chi2.Namespace)
    (hName : chi1.Name = chi2.Name)
    (hs : deploymentGenerateString d1 = deploymentGenerateString d2) :
    deploymentGenerateFingerprint chi1 d1 = deploymentGenerateFingerprint chi2 d2 := by
  unfold deploymentGenerateFingerprint
  rw [hNs, hName, hs]

/-- Association-list lookup of the key of a member pair, under distinct
keys, yields that pair's value. -/
theorem lookupOfMemNodup {l : List (String × String)} (nd : (l.map Prod.fst).Nodup)
    {p : String × String} (hp : p ∈ l) : l.lookup p.1 = some p.2 := by
  induction l with
  | nil => cases hp
  | cons q t ih =>
    simp only [List.map_cons, List.nodup_cons] at nd
    rcases List.mem_cons.mp hp with h | h
    · subst h; simp [List.lookup]
    · have hne : (p.1 == q.1) = false := by
        cases hg : p.1 == q.1 with
        | true =>
          exact absurd (List.mem_map.mpr ⟨p, h, eq_of_beq hg⟩) nd.1
        | false => rfl
      simp only [List.lookup, hne]
      exact ih nd.2 h

/-- Sorting the pairs by key and then projecting the keys is the same as
sorting the projected keys. -/
theorem mapFstInsertionSort (l : List (String × String)) :
    (l.insertionSort (fun a b => a.1 ≤ b.1)).map Prod.fst =
      (l.map Prod.fst).insertionSort (fun a b => a ≤ b) := by
  apply List.eq_of_perm_of_sorted (r := fun a b : String => a ≤ b)
  · exact ((List.perm_insertionSort _ l).map Prod.fst).trans
      (List.perm_insertionSort _ _).symm
  · exact List.Pairwise.map Prod.fst (fun a b hab => hab)
      (List.sorted_insertionSort (fun a b : String × String => a.1 ≤ b.1) l)
  · exact List.sorted_insertionSort _ _

/-- For distinct keys the code's canonical string (sort the keys, look each
one up) coincides with the amended formula (sort the pairs, render each). -/
theorem deploymentGenerateStringAmended_eq (d : ChiDeployment)
    (nd : (d.Zone.MatchLabels.map Prod.fst).Nodup) :
    deploymentGenerateString d = deploymentGenerateStringAmended d := by
  rw [deploymentGenerateString_eq]
  unfold deploymentGenerateStringAmended
  congr 1
  rw [← mapFstInsertionSort, List.map_map]
  congr 1
  apply List.map_congr_left
  intro p hp
  have hmem : p ∈ d.Zone.MatchLabels := (List.perm_insertionSort _ _).mem_iff.mp hp
  simp only [Function.comp_apply, lookupOfMemNodup nd hmem, Option.getD_some,
    String.append_assoc]

/-! ### Claim C2: InternalReplication normalization -/

/-- C2 counterexample: the stored value `garbage` is neither canonical
value (so the claim, as stated, demands the canonical false value), yet
normalization forces the canonical TRUE value. -/
theorem claim_C2_counterexample :
    shardUnknownIR.InternalReplication ≠ stringTrue ∧
    shardUnknownIR.InternalReplication ≠ stringFalse ∧
    shardUnknownIR.InternalReplication ≠ shardInternalReplicationDisabled ∧
    (normalizeClusterAdvancedLayoutShardsInternalReplication
      shardUnknownIR).InternalReplication = stringTrue ∧
    stringTrue ≠ stringFalse := by
  refine ⟨by decide, by decide, by decide, ?_, by decide⟩
  decide

/-- C2 (amended): after normalization of an Advanced-layout shard,
`InternalReplication` is exactly one of the two canonical values; it is the
canonical false value exactly when the stored value was the disabled
sentinel, and the canonical true value for every other stored value
(unset, unknown, or already canonical). -/
theorem claim_C2_internal_replication_canonical (shard : ChiClusterLayoutShard) :
    ((normalizeClusterAdvancedLayoutShardsInternalReplication shard).InternalReplication =
        stringTrue ∨
      (normalizeClusterAdvancedLayoutShardsInternalReplication shard).InternalReplication =
        stringFalse) ∧
    ((normalizeClusterAdvancedLayoutShardsInternalReplication shard).InternalReplication =
        stringFalse ↔ shard.InternalReplication = shardInternalReplicationDisabled) := by
  unfold normalizeClusterAdvancedLayoutShardsInternalReplication
  by_cases h : shard.InternalReplication = shardInternalReplicationDisabled <;>
    simp [h, stringTrue, stringFalse]

/-! ### Claim C3: all-or-nothing zone merge -/

/-- C3: in `deploymentMergeFrom`, the zone label mapping moves as one atomic
field — the whole source mapping when the destination has no labels, and the
untouched destination mapping (no individual parent label is acquired)
otherwise.  In the pure embedding the copied mapping is a value, so later
changes to either side cannot alias the other. -/
theorem claim_C3_zone_all_or_nothing (dst src : ChiDeployment) :
    (deploymentMergeFrom dst src).Zone.MatchLabels =
      if dst.Zone.MatchLabels.length = 0 then src.Zone.MatchLabels
      else dst.Zone.MatchLabels := by
  rw [deploymentMergeFrom_eq]
  by_cases h : dst.Zone.MatchLabels.length = 0 <;> simp [h]

/-! ### Claim C9: the fingerprint's exact inputs -/

/-- C9: the fingerprint is a function of exactly the installation's
`Namespace` and `Name` plus the deployment's `PodTemplate`,
`VolumeClaimTemplate`, `Scenario` and `Zone.MatchLabels`; every other
attribute of either argument is immaterial. -/
theorem claim_C9_fingerprint_function_of_six_inputs
    (chi1 chi2 : ClickHouseInstallation) (d1 d2 : ChiDeployment)
    (hNs : chi1.Namespace = chi2.Namespace) (hName : chi1.Name = chi2.Name)
    (hPT : d1.PodTemplate = d2.PodTemplate)
    (hVCT : d1.VolumeClaimTemplate = d2.VolumeClaimTemplate)
    (hSc : d1.Scenario = d2.Scenario)
    (hZ : d1.Zone.MatchLabels = d2.Zone.MatchLabels) :
    deploymentGenerateFingerprint chi1 d1 = deploymentGenerateFingerprint chi2 d2 :=
  deploymentGenerateFingerprint_congr chi1 chi2 d1 d2 hNs hName
    (deploymentGenerateString_congr_eq d1 d2 hPT hVCT hSc hZ)

/-- C9 witness: two installations that differ in defaults and cluster
content, and two deployments that differ in `Fingerprint` and `Index`,
agree on the six inputs, so the fingerprints coincide. -/
theorem claim_C9_witness :
    deploymentGenerateFingerprint chiTwoClusters
        { deploymentAB with Fingerprint := "x", Index := 5 } =
      deploymentGenerateFingerprint chiC7 deploymentAB :=
  claim_C9_fingerprint_function_of_six_inputs chiTwoClusters chiC7
    { deploymentAB with Fingerprint := "x", Index := 5 } deploymentAB
    rfl rfl rfl rfl rfl rfl

/-! ### Claim C5: the canonical string formula and order independence -/

/-- C5 counterexample: with one zone label the code's canonical string
carries an extra `::` separator between the fixed prefix and the first
label (four colons after `Scenario`), not the two colons of the claim's
formula. -/
theorem claim_C5_counterexample :
    deploymentGenerateString deploymentC5 ≠ deploymentGenerateStringSpec deploymentC5 ∧
    deploymentGenerateString deploymentC5 = "pt::vct::sc::::zone=z1" ∧
    deploymentGenerateStringSpec deploymentC5 = "pt::vct::sc::zone=z1" := by
  refine ⟨?_, ?_, ?_⟩ <;> decide

/-- C5 (amended): the canonical string is the fixed prefix
`PodTemplate::VolumeClaimTemplate::Scenario::` followed, for each zone label
in key-sorted order, by a further `::` separator and the rendered
`key=value` (sorting the pairs themselves — an equivalent, lookup-free
construction — for label maps with distinct keys); consequently the
canonical string and the fingerprint are identical for any two label
mappings with the same key/value pairs, regardless of insertion order. -/
theorem claim_C5_canonical_string :
    (∀ d : ChiDeployment, (d.Zone.MatchLabels.map Prod.fst).Nodup →
      deploymentGenerateString d = deploymentGenerateStringAmended d) ∧
    (∀ d1 d2 : ChiDeployment, d1.PodTemplate = d2.PodTemplate →
      d1.VolumeClaimTemplate = d2.VolumeClaimTemplate → d1.Scenario = d2.Scenario →
      d1.Zone.MatchLabels.Perm d2.Zone.MatchLabels →
      (d1.Zone.MatchLabels.map Prod.fst).Nodup →
      deploymentGenerateString d1 = deploymentGenerateString d2 ∧
      ∀ chi : ClickHouseInstallation,
        deploymentGenerateFingerprint chi d1 = deploymentGenerateFingerprint chi d2) := by
  refine ⟨fun d nd => deploymentGenerateStringAmended_eq d nd,
    fun d1 d2 hPT hVCT hSc hZ nd => ?_⟩
  have hs := deploymentGenerateString_congr_perm d1 d2 hPT hVCT hSc hZ nd
  exact ⟨hs, fun chi => deploymentGenerateFingerprint_congr chi chi d1 d2 rfl rfl hs⟩

/-- C5 witness: the amended formula evaluated at the one-label deployment,
and order independence at the two-label deployments with opposite insertion
orders. -/
theorem claim_C5_witness :
    deploymentGenerateString deploymentC5 = deploymentGenerateStringAmended deploymentC5 ∧
    deploymentGenerateString deploymentAB = deploymentGenerateString deploymentBA ∧
    deploymentGenerateFingerprint chiTwoClusters deploymentAB =
      deploymentGenerateFingerprint chiTwoClusters deploymentBA := by
  have h2 := claim_C5_canonical_string.2 deploymentAB deploymentBA rfl rfl rfl
    (by decide) (by decide)
  exact ⟨claim_C5_canonical_string.1 deploymentC5 (by decide), h2.1, h2.2 chiTwoClusters⟩

/-! ### Claims C6 and C10: layout expansion -/

/-- Normalizing a replica sequence preserves its length. -/
theorem normalizeReplicasGo_length (chi : ClickHouseInstallation) (sd : ChiDeployment) :
    ∀ (rs : List ChiClusterLayoutShardReplica) (c : NamedNumber),
      (normalizeReplicasGo chi sd rs c).1.length = rs.length := by
  intro rs
  induction rs with
  | nil => intro c; rfl
  | cons r rs ih => intro c; simp [normalizeReplicasGo, ih]

/-- Normal form of `normalizeClusterStandardLayoutCounts`. -/
theorem normalizeClusterStandardLayoutCounts_eq (layout : ChiClusterLayout) :
    normalizeClusterStandardLayoutCounts layout =
      { layout with
        ShardsCount := if layout.ShardsCount = 0 then 1 else layout.ShardsCount,
        ReplicasCount := if layout.ReplicasCount = 0 then 1 else layout.ReplicasCount } := by
  unfold normalizeClusterStandardLayoutCounts
  by_cases h1 : layout.ShardsCount = 0 <;> by_cases h2 : layout.ReplicasCount = 0 <;>
    simp [h1, h2]

/-- The Standard-branch shard loop produces exactly `n` shards. -/
theorem buildStandardShardsGo_length (chi : ClickHouseInstallation)
    (layout : ChiClusterLayout) :
    ∀ (n : Nat) (c : NamedNumber), (buildStandardShardsGo chi layout n c).1.length = n := by
  intro n
  induction n with
  | zero => intro c; rfl
  | succ n ih => intro c; simp [buildStandardShardsGo, ih]

/-- Every shard generated by the Standard branch inherits the layout's
replica count, has internal replication forced on, and carries exactly that
many replicas. -/
theorem buildStandardShardsGo_mem (chi : ClickHouseInstallation)
    (layout : ChiClusterLayout) :
    ∀ (n : Nat) (c : NamedNumber) (s : ChiClusterLayoutShard),
      s ∈ (buildStandardShardsGo chi layout n c).1 →
      s.ReplicasCount = layout.ReplicasCount ∧
      s.Replicas.length = layout.ReplicasCount ∧
      s.InternalReplication = stringTrue := by
  intro n
  induction n with
  | zero => intro c s hs; cases hs
  | succ n ih =>
    intro c s hs
    rcases List.mem_cons.mp hs with h | h
    · subst h
      refine ⟨rfl, ?_, rfl⟩
      simp [normalizeStandardShard, normalizeSpecConfigurationClustersLayoutShardsReplicas,
        normalizeReplicasGo_length]
    · exact ih _ s h

/-- C6: for a Standard-layout cluster, normalization defaults zero counts to
1, allocates exactly `ShardsCount` shards, and gives every shard exactly
`ReplicasCount` replicas with internal replication forced to the canonical
true value. -/
theorem claim_C6_standard_layout (chi : ClickHouseInstallation) (cluster : ChiCluster)
    (h : cluster.Layout.Type = clusterLayoutTypeStandard) :
    let c := (normalizeSpecConfigurationClustersCluster chi cluster).1
    c.Layout.ShardsCount =
      (if cluster.Layout.ShardsCount = 0 then 1 else cluster.Layout.ShardsCount) ∧
    c.Layout.ReplicasCount =
      (if cluster.Layout.ReplicasCount = 0 then 1 else cluster.Layout.ReplicasCount) ∧
    c.Layout.Shards.length = c.Layout.ShardsCount ∧
    ∀ s ∈ c.Layout.Shards, s.ReplicasCount = c.Layout.ReplicasCount ∧
      s.Replicas.length = c.Layout.ReplicasCount ∧
      s.InternalReplication = stringTrue := by
  intro c
  have hc : c = (normalizeSpecConfigurationClustersCluster chi cluster).1 := rfl
  unfold normalizeSpecConfigurationClustersCluster at hc
  simp only [h, reduceIte, normalizeClusterStandardLayoutCounts_eq] at hc
  rw [hc]
  dsimp only
  refine ⟨rfl, rfl, buildStandardShardsGo_length _ _ _ _, fun s hs => ?_⟩
  exact buildStandardShardsGo_mem _ _ _ _ s hs

/-- C6 witness: counts 0/0 yield exactly one shard with one replica and
internal replication on. -/
theorem claim_C6_witness :
    standardClusterZero.Layout.Type = clusterLayoutTypeStandard ∧
    standardClusterZero.Layout.ShardsCount = 0 ∧
    standardClusterZero.Layout.ReplicasCount = 0 ∧
    (normalizeSpecConfigurationClustersCluster chiTwoClusters
      standardClusterZero).1.Layout.ShardsCount = 1 ∧
    (normalizeSpecConfigurationClustersCluster chiTwoClusters
      standardClusterZero).1.Layout.ReplicasCount = 1 ∧
    (normalizeSpecConfigurationClustersCluster chiTwoClusters
      standardClusterZero).1.Layout.Shards.length = 1 ∧
    ∀ s ∈ (normalizeSpecConfigurationClustersCluster chiTwoClusters
      standardClusterZero).1.Layout.Shards,
      s.Replicas.length = 1 ∧ s.InternalReplication = stringTrue := by
  obtain ⟨h1, h2, h3, h4⟩ :=
    claim_C6_standard_layout chiTwoClusters standardClusterZero (by decide)
  have e1 : standardClusterZero.Layout.ShardsCount = 0 := by decide
  have e2 : standardClusterZero.Layout.ReplicasCount = 0 := by decide
  simp only [e1, e2, reduceIte] at h1 h2
  refine ⟨by decide, e1, e2, h1, h2, by rw [h3, h1], fun s hs => ?_⟩
  obtain ⟨_, hb, hc⟩ := h4 s hs
  exact ⟨by rw [hb, h2], hc⟩

/-- C10: for an Advanced shard defined by `ReplicasCount`, normalization
allocates a fresh replica sequence of exactly `ReplicasCount` elements —
even zero — and the result is entirely independent of any pre-existing
replicas; the count itself is never defaulted. -/
theorem claim_C10_replicascount_fresh_allocation (chi : ClickHouseInstallation)
    (clusterDep : ChiDeployment) (shard : ChiClusterLayoutShard) (counter : NamedNumber)
    (h : shard.DefinitionType = shardDefinitionTypeReplicasCount) :
    (normalizeAdvancedShard chi clusterDep shard counter).1.Replicas.length =
      shard.ReplicasCount ∧
    (normalizeAdvancedShard chi clusterDep shard counter).1.ReplicasCount =
      shard.ReplicasCount ∧
    ∀ rs : List ChiClusterLayoutShardReplica,
      normalizeAdvancedShard chi clusterDep { shard with Replicas := rs } counter =
        normalizeAdvancedShard chi clusterDep shard counter := by
  by_cases hIR : shard.InternalReplication = shardInternalReplicationDisabled <;>
    simp [normalizeAdvancedShard, normalizeClusterAdvancedLayoutShardsInternalReplication,
      normalizeSpecConfigurationClustersLayoutShardsReplicas, h, hIR,
      normalizeReplicasGo_length]

/-- C10 witness: a count-defined shard with `ReplicasCount = 0` and one
pre-existing replica ends up with zero replicas. -/
theorem claim_C10_witness :
    shardC10.DefinitionType = shardDefinitionTypeReplicasCount ∧
    shardC10.ReplicasCount = 0 ∧ shardC10.Replicas.length = 1 ∧
    (normalizeAdvancedShard chiTwoClusters emptyDeployment shardC10
      NamedNumber.empty).1.Replicas.length = 0 := by
  have h := claim_C10_replicascount_fresh_allocation chiTwoClusters emptyDeployment
    shardC10 NamedNumber.empty (by decide)
  have e : shardC10.ReplicasCount = 0 := by decide
  exact ⟨by decide, e, by decide, by rw [h.1, e]⟩

/-! ### Claim C4: max-aggregation of usage counts across clusters -/

/-- The cluster loop accumulates, per fingerprint, the running maximum of
the per-cluster usage counts. -/
theorem normalizeClustersGo_usage (chi : ClickHouseInstallation) (F : String) :
    ∀ (cs : List ChiCluster) (acc : NamedNumber),
      (normalizeClustersGo chi cs acc).2 F =
        (cs.map (fun c => (normalizeSpecConfigurationClustersCluster chi c).2 F)).foldl
          max (acc F) := by
  intro cs
  induction cs with
  | nil => intro acc; rfl
  | cons c cs ih =>
    intro acc
    simp only [normalizeClustersGo, List.map_cons, List.foldl_cons]
    exact ih (acc.mergeAndReplaceWithBiggerValues
      (normalizeSpecConfigurationClustersCluster chi c).2)

/-- C4: the usage map returned by `NormalizeCHI` assigns to each fingerprint
the maximum — not the sum — of that fingerprint's per-cluster usage counts
over all clusters of the installation. -/
theorem claim_C4_max_aggregation (chi : ClickHouseInstallation) (F : String) :
    (NormalizeCHI chi).2 F = ((clusterUsages chi).map (fun u => u F)).foldl max 0 := by
  show (normalizeClustersGo (defaultedCHI chi)
    (defaultedCHI chi).Spec.Configuration.Clusters NamedNumber.empty).2 F = _
  rw [normalizeClustersGo_usage]
  unfold clusterUsages
  rw [List.map_map]
  rfl

/-! ### Claim C1: fingerprint identity and index assignment -/

/-- Incrementing a counter key reads back one more. -/
theorem NamedNumber.incr_self (m : NamedNumber) (k : String) : m.incr k k = m k + 1 := by
  simp [NamedNumber.incr]

/-- Incrementing a counter leaves other keys unchanged. -/
theorem NamedNumber.incr_ne (m : NamedNumber) (k x : String) (h : x ≠ k) :
    m.incr k x = m x := by
  simp [NamedNumber.incr, h]

/-- `indicesOfFingerprint` distributes over append. -/
theorem indicesOfFingerprint_append (F : String)
    (as bs : List ChiClusterLayoutShardReplica) :
    indicesOfFingerprint F (as ++ bs) =
      indicesOfFingerprint F as ++ indicesOfFingerprint F bs := by
  simp [indicesOfFingerprint, List.filter_append]

/-- `List.range'` with unit step splits additively. -/
theorem rangeAppendOne (s m n : Nat) :
    List.range' s m ++ List.range' (s + m) n = List.range' s (m + n) := by
  rw [Nat.add_comm m n]
  exact List.range'_append_1 s m n


/-- Keeping only the replicas fingerprinted `F`, their indices, of a cons. -/
theorem indicesOfFingerprint_cons_self (F : String) (r : ChiClusterLayoutShardReplica)
    (l : List ChiClusterLayoutShardReplica) (h : r.Deployment.Fingerprint = F) :
    indicesOfFingerprint F (r :: l) = r.Deployment.Index :: indicesOfFingerprint F l := by
  simp [indicesOfFingerprint, List.filter_cons, h]

/-- A replica with a different fingerprint does not contribute an index. -/
theorem indicesOfFingerprint_cons_ne (F : String) (r : ChiClusterLayoutShardReplica)
    (l : List ChiClusterLayoutShardReplica) (h : ¬r.Deployment.Fingerprint = F) :
    indicesOfFingerprint F (r :: l) = indicesOfFingerprint F l := by
  simp [indicesOfFingerprint, List.filter_cons, h]

/-- Counter invariant of the replica loop: the outgoing count of any
fingerprint `F` is the incoming count plus the number of produced replicas
carrying `F`, and those replicas' indices are consecutive, starting at the
incoming count, in visitation order. -/
theorem normalizeReplicasGo_indices (chi : ClickHouseInstallation) (sd : ChiDeployment)
    (F : String) :
    ∀ (rs : List ChiClusterLayoutShardReplica) (c : NamedNumber),
      (normalizeReplicasGo chi sd rs c).2 F =
        c F + (indicesOfFingerprint F (normalizeReplicasGo chi sd rs c).1).length ∧
      indicesOfFingerprint F (normalizeReplicasGo chi sd rs c).1 =
        List.range' (c F)
          (indicesOfFingerprint F (normalizeReplicasGo chi sd rs c).1).length := by
  intro rs
  induction rs with
  | nil => intro c; exact ⟨rfl, rfl⟩
  | cons r rs ih =>
    intro c
    obtain ⟨ih1, ih2⟩ := ih (c.incr (deploymentGenerateFingerprint chi
      (deploymentMergeFrom r.Deployment sd)))
    by_cases hFf : deploymentGenerateFingerprint chi (deploymentMergeFrom r.Deployment sd) = F
    · subst hFf
      rw [NamedNumber.incr_self] at ih1 ih2
      simp only [normalizeReplicasGo, normalizeReplicaOne, NamedNumber.incr_self,
        Nat.add_sub_cancel, indicesOfFingerprint_cons_self, List.length_cons]
      constructor
      · rw [ih1]
        omega
      · rw [List.range'_succ, ← ih2]
    · have hne : F ≠ deploymentGenerateFingerprint chi (deploymentMergeFrom r.Deployment sd) :=
        Ne.symm hFf
      rw [NamedNumber.incr_ne _ _ _ hne] at ih1 ih2
      simp only [normalizeReplicasGo, normalizeReplicaOne, NamedNumber.incr_self,
        Nat.add_sub_cancel, indicesOfFingerprint_cons_ne, hFf, not_false_eq_true]
      exact ⟨ih1, ih2⟩

/-- Normal form of the internal-replication resolver. -/
theorem normalizeIR_eq (shard : ChiClusterLayoutShard) :
    normalizeClusterAdvancedLayoutShardsInternalReplication shard =
      { shard with InternalReplication :=
          if shard.InternalReplication = shardInternalReplicationDisabled then stringFalse
          else stringTrue } := by
  unfold normalizeClusterAdvancedLayoutShardsInternalReplication
  by_cases h : shard.InternalReplication = shardInternalReplicationDisabled <;> simp [h]

/-- The index invariant lifted through the shard-level wrapper. -/
theorem wrapperIndices (chi : ClickHouseInstallation) (shard : ChiClusterLayoutShard)
    (c : NamedNumber) (F : String) :
    (normalizeSpecConfigurationClustersLayoutShardsReplicas chi shard c).2 F =
      c F + (indicesOfFingerprint F
        (normalizeSpecConfigurationClustersLayoutShardsReplicas chi shard c).1.Replicas).length ∧
    indicesOfFingerprint F
        (normalizeSpecConfigurationClustersLayoutShardsReplicas chi shard c).1.Replicas =
      List.range' (c F) (indicesOfFingerprint F
        (normalizeSpecConfigurationClustersLayoutShardsReplicas chi shard c).1.Replicas).length :=
  normalizeReplicasGo_indices chi shard.Deployment F shard.Replicas c

/-- The index invariant for one Advanced-branch shard. -/
theorem normalizeAdvancedShard_indices (chi : ClickHouseInstallation) (cd : ChiDeployment)
    (shard : ChiClusterLayoutShard) (c : NamedNumber) (F : String) :
    (normalizeAdvancedShard chi cd shard c).2 F =
      c F + (indicesOfFingerprint F (normalizeAdvancedShard chi cd shard c).1.Replicas).length ∧
    indicesOfFingerprint F (normalizeAdvancedShard chi cd shard c).1.Replicas =
      List.range' (c F)
        (indicesOfFingerprint F (normalizeAdvancedShard chi cd shard c).1.Replicas).length := by
  simp only [normalizeAdvancedShard, normalizeIR_eq]
  by_cases hDT : shard.DefinitionType = shardDefinitionTypeReplicasCount <;>
    simp only [hDT, eq_self_iff_true, if_true, if_false, reduceIte] <;>
    exact wrapperIndices chi _ c F

/-- The index invariant for one Standard-branch shard. -/
theorem normalizeStandardShard_indices (chi : ClickHouseInstallation)
    (layout : ChiClusterLayout) (c : NamedNumber) (F : String) :
    (normalizeStandardShard chi layout c).2 F =
      c F + (indicesOfFingerprint F (normalizeStandardShard chi layout c).1.Replicas).length ∧
    indicesOfFingerprint F (normalizeStandardShard chi layout c).1.Replicas =
      List.range' (c F)
        (indicesOfFingerprint F (normalizeStandardShard chi layout c).1.Replicas).length := by
  unfold normalizeStandardShard
  exact wrapperIndices chi _ c F

/-- The index invariant over the Advanced-branch shard loop. -/
theorem normalizeAdvancedShardsGo_indices (chi : ClickHouseInstallation)
    (cd : ChiDeployment) (F : String) :
    ∀ (ss : List ChiClusterLayoutShard) (c : NamedNumber),
      (normalizeAdvancedShardsGo chi cd ss c).2 F =
        c F + (indicesOfFingerprint F
          (((normalizeAdvancedShardsGo chi cd ss c).1).flatMap (fun s => s.Replicas))).length ∧
      indicesOfFingerprint F
          (((normalizeAdvancedShardsGo chi cd ss c).1).flatMap (fun s => s.Replicas)) =
        List.range' (c F) ((indicesOfFingerprint F
          (((normalizeAdvancedShardsGo chi cd ss c).1).flatMap (fun s => s.Replicas))).length) := by
  intro ss
  induction ss with
  | nil => intro c; exact ⟨rfl, rfl⟩
  | cons s ss ih =>
    intro c
    obtain ⟨h1, h2⟩ := normalizeAdvancedShard_indices chi cd s c F
    obtain ⟨ih1, ih2⟩ := ih (normalizeAdvancedShard chi cd s c).2
    simp only [normalizeAdvancedShardsGo, List.flatMap_cons, indicesOfFingerprint_append,
      List.length_append]
    rw [h1] at ih1 ih2
    constructor
    · rw [ih1, h2]
      simp only [List.length_range']
      omega
    · rw [ih2, h2]
      simp only [List.length_range']
      rw [rangeAppendOne]

/-- The index invariant over the Standard-branch shard loop. -/
theorem buildStandardShardsGo_indices (chi : ClickHouseInstallation)
    (layout : ChiClusterLayout) (F : String) :
    ∀ (n : Nat) (c : NamedNumber),
      (buildStandardShardsGo chi layout n c).2 F =
        c F + (indicesOfFingerprint F
          (((buildStandardShardsGo chi layout n c).1).flatMap (fun s => s.Replicas))).length ∧
      indicesOfFingerprint F
          (((buildStandardShardsGo chi layout n c).1).flatMap (fun s => s.Replicas)) =
        List.range' (c F) ((indicesOfFingerprint F
          (((buildStandardShardsGo chi layout n c).1).flatMap (fun s => s.Replicas))).length) := by
  intro n
  induction n with
  | zero => intro c; exact ⟨rfl, rfl⟩
  | succ n ih =>
    intro c
    obtain ⟨h1, h2⟩ := normalizeStandardShard_indices chi layout c F
    obtain ⟨ih1, ih2⟩ := ih (normalizeStandardShard chi layout c).2
    simp only [buildStandardShardsGo, List.flatMap_cons, indicesOfFingerprint_append,
      List.length_append]
    rw [h1] at ih1 ih2
    constructor
    · rw [ih1, h2]
      simp only [List.length_range']
      omega
    · rw [ih2, h2]
      simp only [List.length_range']
      rw [rangeAppendOne]

/-- Per cluster, the indices of any fingerprint are `0, 1, 2, …` in
visitation order (Standard and Advanced layouts). -/
theorem normalizeCluster_indices (chi : ClickHouseInstallation) (cluster : ChiCluster)
    (F : String)
    (h : cluster.Layout.Type = clusterLayoutTypeStandard ∨
      cluster.Layout.Type = clusterLayoutTypeAdvanced) :
    indicesOfFingerprint F
        (clusterReplicas (normalizeSpecConfigurationClustersCluster chi cluster).1) =
      List.range ((indicesOfFingerprint F
        (clusterReplicas (normalizeSpecConfigurationClustersCluster chi cluster).1)).length) := by
  rcases h with h | h
  · unfold normalizeSpecConfigurationClustersCluster clusterReplicas
    simp only [h, clusterLayoutTypeStandard, reduceIte]
    rw [List.range_eq_range']
    exact (buildStandardShardsGo_indices chi _ F _ NamedNumber.empty).2
  · unfold normalizeSpecConfigurationClustersCluster clusterReplicas
    simp only [h, clusterLayoutTypeStandard, clusterLayoutTypeAdvanced, reduceIte]
    rw [List.range_eq_range']
    exact (normalizeAdvancedShardsGo_indices chi _ F _ NamedNumber.empty).2

/-- The cluster loop returns the clusters normalized one by one. -/
theorem normalizeClustersGo_fst (chi : ClickHouseInstallation) :
    ∀ (cs : List ChiCluster) (acc : NamedNumber),
      (normalizeClustersGo chi cs acc).1 =
        cs.map (fun c => (normalizeSpecConfigurationClustersCluster chi c).1) := by
  intro cs
  induction cs with
  | nil => intro acc; rfl
  | cons c cs ih => intro acc; simp [normalizeClustersGo, ih]

/-- Cluster normalization preserves the layout type tag. -/
theorem normalizeCluster_type (chi : ClickHouseInstallation) (cluster : ChiCluster) :
    (normalizeSpecConfigurationClustersCluster chi cluster).1.Layout.Type =
      cluster.Layout.Type := by
  unfold normalizeSpecConfigurationClustersCluster
  by_cases h1 : cluster.Layout.Type = clusterLayoutTypeStandard
  · simp [h1, normalizeClusterStandardLayoutCounts_eq]
  · by_cases h2 : cluster.Layout.Type = clusterLayoutTypeAdvanced
    · simp [h1, h2, clusterLayoutTypeStandard, clusterLayoutTypeAdvanced]
    · simp [h1, h2]

/-- The clusters of `NormalizeCHI`'s output are the defaulted input clusters,
each normalized. -/
theorem normalizeCHI_clusters (chi : ClickHouseInstallation) :
    (NormalizeCHI chi).1.Spec.Configuration.Clusters =
      (defaultedCHI chi).Spec.Configuration.Clusters.map
        (fun c => (normalizeSpecConfigurationClustersCluster (defaultedCHI chi) c).1) := by
  show (normalizeClustersGo (defaultedCHI chi)
    (defaultedCHI chi).Spec.Configuration.Clusters NamedNumber.empty).1 = _
  exact normalizeClustersGo_fst _ _ _

set_option maxRecDepth 10000 in
/-- C1 counterexample: in an installation with two identical Standard
clusters, the two replicas have field-for-field identical resolved
descriptors and the same fingerprint, but their `Index` values do NOT
differ — both are 0, because the index counter restarts per cluster. -/
theorem claim_C1_counterexample :
    ((((NormalizeCHI chiTwoClusters).1.Spec.Configuration.Clusters.getD 0
        emptyCluster).Layout.Shards.getD 0 emptyShard).Replicas.getD 0
        emptyReplica).Deployment.PodTemplate =
      ((((NormalizeCHI chiTwoClusters).1.Spec.Configuration.Clusters.getD 1
        emptyCluster).Layout.Shards.getD 0 emptyShard).Replicas.getD 0
        emptyReplica).Deployment.PodTemplate ∧
    ((((NormalizeCHI chiTwoClusters).1.Spec.Configuration.Clusters.getD 0
        emptyCluster).Layout.Shards.getD 0 emptyShard).Replicas.getD 0
        emptyReplica).Deployment.VolumeClaimTemplate =
      ((((NormalizeCHI chiTwoClusters).1.Spec.Configuration.Clusters.getD 1
        emptyCluster).Layout.Shards.getD 0 emptyShard).Replicas.getD 0
        emptyReplica).Deployment.VolumeClaimTemplate ∧
    ((((NormalizeCHI chiTwoClusters).1.Spec.Configuration.Clusters.getD 0
        emptyCluster).Layout.Shards.getD 0 emptyShard).Replicas.getD 0
        emptyReplica).Deployment.Scenario =
      ((((NormalizeCHI chiTwoClusters).1.Spec.Configuration.Clusters.getD 1
        emptyCluster).Layout.Shards.getD 0 emptyShard).Replicas.getD 0
        emptyReplica).Deployment.Scenario ∧
    ((((NormalizeCHI chiTwoClusters).1.Spec.Configuration.Clusters.getD 0
        emptyCluster).Layout.Shards.getD 0 emptyShard).Replicas.getD 0
        emptyReplica).Deployment.Zone =
      ((((NormalizeCHI chiTwoClusters).1.Spec.Configuration.Clusters.getD 1
        emptyCluster).Layout.Shards.getD 0 emptyShard).Replicas.getD 0
        emptyReplica).Deployment.Zone ∧
    ((((NormalizeCHI chiTwoClusters).1.Spec.Configuration.Clusters.getD 0
        emptyCluster).Layout.Shards.getD 0 emptyShard).Replicas.getD 0
        emptyReplica).Deployment.Fingerprint =
      ((((NormalizeCHI chiTwoClusters).1.Spec.Configuration.Clusters.getD 1
        emptyCluster).Layout.Shards.getD 0 emptyShard).Replicas.getD 0
        emptyReplica).Deployment.Fingerprint ∧
    ((((NormalizeCHI chiTwoClusters).1.Spec.Configuration.Clusters.getD 0
        emptyCluster).Layout.Shards.getD 0 emptyShard).Replicas.getD 0
        emptyReplica).Deployment.Index = 0 ∧
    ((((NormalizeCHI chiTwoClusters).1.Spec.Configuration.Clusters.getD 1
        emptyCluster).Layout.Shards.getD 0 emptyShard).Replicas.getD 0
        emptyReplica).Deployment.Index = 0 := by
  decide

/-- C1 (amended): within one installation, any two deployments that agree
field-for-field (zone label set compared as a set, with distinct keys)
receive the same fingerprint, regardless of cluster/shard/replica; and
within each single cluster of the normalized installation (Standard or
Advanced layout), the replicas sharing any fingerprint receive the indices
`0, 1, 2, …` in visitation order — indices restart per cluster, so
equal-descriptor replicas in different clusters may share an index. -/
theorem claim_C1_fingerprint_and_cluster_indices :
    (∀ (chi : ClickHouseInstallation) (d1 d2 : ChiDeployment),
      d1.PodTemplate = d2.PodTemplate → d1.VolumeClaimTemplate = d2.VolumeClaimTemplate →
      d1.Scenario = d2.Scenario → d1.Zone.MatchLabels.Perm d2.Zone.MatchLabels →
      (d1.Zone.MatchLabels.map Prod.fst).Nodup →
      deploymentGenerateFingerprint chi d1 = deploymentGenerateFingerprint chi d2) ∧
    (∀ (chi : ClickHouseInstallation) (i : Nat) (F : String),
      (((NormalizeCHI chi).1.Spec.Configuration.Clusters.getD i emptyCluster).Layout.Type =
          clusterLayoutTypeStandard ∨
        ((NormalizeCHI chi).1.Spec.Configuration.Clusters.getD i emptyCluster).Layout.Type =
          clusterLayoutTypeAdvanced) →
      indicesOfFingerprint F (clusterReplicas
          ((NormalizeCHI chi).1.Spec.Configuration.Clusters.getD i emptyCluster)) =
        List.range ((indicesOfFingerprint F (clusterReplicas
          ((NormalizeCHI chi).1.Spec.Configuration.Clusters.getD i emptyCluster))).length)) := by
  constructor
  · intro chi d1 d2 h1 h2 h3 h4 h5
    exact deploymentGenerateFingerprint_congr chi chi d1 d2 rfl rfl
      (deploymentGenerateString_congr_perm d1 d2 h1 h2 h3 h4 h5)
  · intro chi i F h
    rw [normalizeCHI_clusters] at h ⊢
    rcases hlt : (defaultedCHI chi).Spec.Configuration.Clusters[i]? with _ | c0
    · rw [List.getD_eq_getElem?_getD, List.getElem?_map, hlt] at h
      rcases h with h | h <;>
        simp [emptyCluster, clusterLayoutTypeStandard, clusterLayoutTypeAdvanced] at h
    · rw [List.getD_eq_getElem?_getD, List.getElem?_map, hlt] at h ⊢
      simp only [Option.map_some', Option.getD_some] at h ⊢
      apply normalizeCluster_indices
      rwa [normalizeCluster_type] at h

/-- C1 witness: fingerprint equality for the two-label deployments with
opposite insertion orders, and the per-cluster index sequence for the first
cluster of the two-cluster installation. -/
theorem claim_C1_witness :
    deploymentGenerateFingerprint chiTwoClusters deploymentAB =
      deploymentGenerateFingerprint chiTwoClusters deploymentBA ∧
    indicesOfFingerprint sampleFingerprint (clusterReplicas
        ((NormalizeCHI chiTwoClusters).1.Spec.Configuration.Clusters.getD 0 emptyCluster)) =
      List.range ((indicesOfFingerprint sampleFingerprint (clusterReplicas
        ((NormalizeCHI chiTwoClusters).1.Spec.Configuration.Clusters.getD 0
          emptyCluster))).length) :=
  ⟨claim_C1_fingerprint_and_cluster_indices.1 chiTwoClusters deploymentAB deploymentBA
      rfl rfl rfl (by decide) (by decide),
   claim_C1_fingerprint_and_cluster_indices.2 chiTwoClusters 0 sampleFingerprint
      (Or.inl (by decide))⟩

/-! ### Claim C7: fingerprint collision-freedom -/

set_option maxRecDepth 10000 in
/-- C7 counterexample: two replicas of the same installation and the same
cluster whose resolved descriptors differ — in both `PodTemplate` and
`VolumeClaimTemplate` — receive the SAME fingerprint, because the `::`
separator also occurs inside the field values, so the canonical strings
coincide before hashing. -/
theorem claim_C7_counterexample :
    (((((NormalizeCHI chiC7).1.Spec.Configuration.Clusters.getD 0
        emptyCluster).Layout.Shards.getD 0 emptyShard).Replicas.getD 0
        emptyReplica).Deployment.PodTemplate ≠
      ((((NormalizeCHI chiC7).1.Spec.Configuration.Clusters.getD 0
        emptyCluster).Layout.Shards.getD 0 emptyShard).Replicas.getD 1
        emptyReplica).Deployment.PodTemplate) ∧
    (((((NormalizeCHI chiC7).1.Spec.Configuration.Clusters.getD 0
        emptyCluster).Layout.Shards.getD 0 emptyShard).Replicas.getD 0
        emptyReplica).Deployment.VolumeClaimTemplate ≠
      ((((NormalizeCHI chiC7).1.Spec.Configuration.Clusters.getD 0
        emptyCluster).Layout.Shards.getD 0 emptyShard).Replicas.getD 1
        emptyReplica).Deployment.VolumeClaimTemplate) ∧
    ((((NormalizeCHI chiC7).1.Spec.Configuration.Clusters.getD 0
        emptyCluster).Layout.Shards.getD 0 emptyShard).Replicas.getD 0
        emptyReplica).Deployment.Fingerprint =
      ((((NormalizeCHI chiC7).1.Spec.Configuration.Clusters.getD 0
        emptyCluster).Layout.Shards.getD 0 emptyShard).Replicas.getD 1
        emptyReplica).Deployment.Fingerprint := by
  decide

/-- The hexadecimal digit map is injective on digit values. -/
theorem hexDigitInj : ∀ a < 16, ∀ b < 16, hexDigit a = hexDigit b → a = b := by decide

/-- Hex encoding is injective on byte lists. -/
theorem hexEncodeInj : ∀ (bs1 bs2 : List Nat), (∀ b ∈ bs1, b < 256) → (∀ b ∈ bs2, b < 256) →
    hexEncodeToString bs1 = hexEncodeToString bs2 → bs1 = bs2 := by
  intro bs1
  induction bs1 with
  | nil =>
    intro bs2 _ _ h
    cases bs2 with
    | nil => rfl
    | cons b t =>
      rw [String.ext_iff] at h
      simp [hexEncodeToString] at h
  | cons a s ih =>
    intro bs2 h1 h2 h
    cases bs2 with
    | nil =>
      rw [String.ext_iff] at h
      simp [hexEncodeToString] at h
    | cons b t =>
      rw [String.ext_iff] at h
      simp only [hexEncodeToString, List.flatMap_cons, List.cons_append, List.nil_append,
        List.cons.injEq] at h
      obtain ⟨e1, e2, e3⟩ := h
      have ha : a < 256 := h1 a (List.mem_cons_self a s)
      have hb : b < 256 := h2 b (List.mem_cons_self b t)
      have d1 : a / 16 = b / 16 :=
        hexDigitInj (a / 16) (by omega) (b / 16) (by omega) e1
      have d2 : a % 16 = b % 16 :=
        hexDigitInj (a % 16) (by omega) (b % 16) (by omega) e2
      have hab : a = b := by omega
      subst hab
      have := ih t (fun x hx => h1 x (List.mem_cons_of_mem a hx))
        (fun x hx => h2 x (List.mem_cons_of_mem a hx))
        (by rw [String.ext_iff]; simpa [hexEncodeToString] using e3)
      rw [this]

/-- Big-endian byte rendering produces bytes. -/
theorem natToBytesBE_lt (width n : Nat) : ∀ b ∈ natToBytesBE width n, b < 256 := by
  intro b hb
  simp only [natToBytesBE, List.mem_map] at hb
  obtain ⟨i, _, rfl⟩ := hb
  exact Nat.mod_lt _ (by omega)

/-- The SHA-1 digest consists of bytes. -/
theorem sha1Bytes_lt (msg : List Nat) : ∀ b ∈ sha1Bytes msg, b < 256 := by
  intro b hb
  unfold sha1Bytes at hb
  simp only [List.mem_append] at hb
  rcases hb with ((((hb | hb) | hb) | hb) | hb) <;> exact natToBytesBE_lt _ _ _ hb

/-- C7 (amended): within one installation, two deployments receive equal
fingerprints exactly when the SHA-1 digests of
`Namespace + Name + canonical string` coincide — the hex rendering loses
nothing.  Collision-freedom for replicas with different descriptors is NOT
guaranteed: the canonical string does not separate the fields injectively
(the counterexample collides already before hashing), and beyond that it
holds only as far as the hash itself is collision-free. -/
theorem claim_C7_fingerprint_collision_scope (chi : ClickHouseInstallation)
    (d1 d2 : ChiDeployment) :
    deploymentGenerateFingerprint chi d1 = deploymentGenerateFingerprint chi d2 ↔
      sha1Bytes (stringToBytes (chi.Namespace ++ chi.Name ++ deploymentGenerateString d1)) =
        sha1Bytes (stringToBytes (chi.Namespace ++ chi.Name ++ deploymentGenerateString d2)) := by
  constructor
  · intro h
    exact hexEncodeInj _ _ (sha1Bytes_lt _) (sha1Bytes_lt _) h
  · intro h
    unfold deploymentGenerateFingerprint sha1hex
    rw [h]


/-! ### Claim C8: idempotence of normalization

The second normalization pass reproduces every fingerprint, index and the
usage map exactly.  (The tree itself is not fully idempotent: an
Advanced-layout shard normalized from the disabled sentinel carries the
canonical false value, which a second pass flips to the canonical true
value — but that field feeds into no fingerprint, index or usage count.)
After the next few definitional lemmas the hashing and merge layers are made
irreducible: the remaining proofs use only the congruence and fixpoint
lemmas established above, and no tactic needs to unfold them again. -/

/-- The fingerprint ignores the two derived fields. -/
theorem deploymentGenerateFingerprint_update (chi : ClickHouseInstallation)
    (d : ChiDeployment) (f : String) (i : Nat) :
    deploymentGenerateFingerprint chi { d with Fingerprint := f, Index := i } =
      deploymentGenerateFingerprint chi d := rfl

/-- Re-normalizing an already-normalized replica sequence from the same
counter reproduces it, replicas and counter alike. -/
theorem normalizeReplicasGo_idem (chi : ClickHouseInstallation) (sd : ChiDeployment) :
    ∀ (rs : List ChiClusterLayoutShardReplica) (c : NamedNumber),
      normalizeReplicasGo chi sd (normalizeReplicasGo chi sd rs c).1 c =
        normalizeReplicasGo chi sd rs c := by
  intro rs
  induction rs with
  | nil => intro c; rfl
  | cons r rs ih =>
    intro c
    show normalizeReplicasGo chi sd
      ((normalizeReplicaOne chi sd r c).1 ::
        (normalizeReplicasGo chi sd rs (normalizeReplicaOne chi sd r c).2).1) c = _
    simp only [normalizeReplicasGo]
    have hhead : normalizeReplicaOne chi sd (normalizeReplicaOne chi sd r c).1 c =
        normalizeReplicaOne chi sd r c := by
      simp only [normalizeReplicaOne, deploymentMergeFrom_fixpoint,
        deploymentGenerateFingerprint_update]
    rw [hhead, ih]

/-- The shard-level wrapper, written out. -/
theorem wrapper_char (chi : ClickHouseInstallation) (shard : ChiClusterLayoutShard)
    (c : NamedNumber) :
    normalizeSpecConfigurationClustersLayoutShardsReplicas chi shard c =
      ({ shard with
          Replicas := (normalizeReplicasGo chi shard.Deployment shard.Replicas c).1 },
       (normalizeReplicasGo chi shard.Deployment shard.Replicas c).2) := rfl

attribute [irreducible] sha1hex deploymentGenerateString deploymentGenerateFingerprint
  deploymentMergeFrom normalizeReplicaOne normalizeReplicasGo
  normalizeSpecConfigurationClustersLayoutShardsReplicas

/-- Branch characterization of one Advanced-branch shard. -/
theorem advShard_char (chi : ClickHouseInstallation) (cd : ChiDeployment)
    (s : ChiClusterLayoutShard) (c : NamedNumber) :
    (normalizeAdvancedShard chi cd s c).1.Replicas =
      (normalizeReplicasGo chi (advDep cd s) (advReplicas s) c).1 ∧
    (normalizeAdvancedShard chi cd s c).2 =
      (normalizeReplicasGo chi (advDep cd s) (advReplicas s) c).2 ∧
    (normalizeAdvancedShard chi cd s c).1.Deployment = advDep cd s ∧
    (normalizeAdvancedShard chi cd s c).1.DefinitionType = s.DefinitionType ∧
    (normalizeAdvancedShard chi cd s c).1.ReplicasCount =
      (if s.DefinitionType = shardDefinitionTypeReplicasCount then s.ReplicasCount
       else s.Replicas.length) ∧
    (normalizeAdvancedShard chi cd s c).1.InternalReplication =
      (if s.InternalReplication = shardInternalReplicationDisabled then stringFalse
       else stringTrue) := by
  by_cases hIR : s.InternalReplication = shardInternalReplicationDisabled <;>
    by_cases hDT : s.DefinitionType = shardDefinitionTypeReplicasCount <;>
      refine ⟨?_, ?_, ?_, ?_, ?_, ?_⟩ <;>
      simp only [normalizeAdvancedShard, normalizeIR_eq, hIR, hDT, wrapper_char, if_true,
        if_false, eq_self_iff_true, advDep, advReplicas, normalizeReplicasGo_length]

theorem advShard_idem (chi : ClickHouseInstallation) (cd : ChiDeployment)
    (s : ChiClusterLayoutShard) (c : NamedNumber) :
    (normalizeAdvancedShard chi cd (normalizeAdvancedShard chi cd s c).1 c).1.Replicas =
      (normalizeAdvancedShard chi cd s c).1.Replicas ∧
    (normalizeAdvancedShard chi cd (normalizeAdvancedShard chi cd s c).1 c).2 =
      (normalizeAdvancedShard chi cd s c).2 := by
  obtain ⟨r1, u1, dep1, dt1, rc1, ir1⟩ := advShard_char chi cd s c
  obtain ⟨r2, u2, dep2, dt2, rc2, ir2⟩ :=
    advShard_char chi cd (normalizeAdvancedShard chi cd s c).1 c
  have hdep : advDep cd (normalizeAdvancedShard chi cd s c).1 = advDep cd s := by
    show deploymentMergeFrom (normalizeAdvancedShard chi cd s c).1.Deployment cd = _
    rw [dep1]
    show deploymentMergeFrom (deploymentMergeFrom s.Deployment cd) cd = _
    exact deploymentMergeFrom_idem s.Deployment cd
  by_cases hDT : s.DefinitionType = shardDefinitionTypeReplicasCount
  · have hrep : advReplicas (normalizeAdvancedShard chi cd s c).1 = advReplicas s := by
      unfold advReplicas
      rw [dt1, rc1]
      simp [hDT]
    constructor
    · rw [r2, hdep, hrep, ← r1]
    · rw [u2, hdep, hrep, ← u1]
  · have hrep : advReplicas (normalizeAdvancedShard chi cd s c).1 =
        (normalizeReplicasGo chi (advDep cd s) (advReplicas s) c).1 := by
      unfold advReplicas
      rw [dt1]
      simp [advReplicas, hDT, r1]
    constructor
    · rw [r2, hdep, hrep, normalizeReplicasGo_idem, ← r1]
    · rw [u2, hdep, hrep, normalizeReplicasGo_idem, ← u1]

theorem advGo_idem (chi : ClickHouseInstallation) (cd : ChiDeployment) :
    ∀ (ss : List ChiClusterLayoutShard) (c : NamedNumber),
      ((normalizeAdvancedShardsGo chi cd (normalizeAdvancedShardsGo chi cd ss c).1 c).1.map
          (fun s => s.Replicas) =
        (normalizeAdvancedShardsGo chi cd ss c).1.map (fun s => s.Replicas)) ∧
      (normalizeAdvancedShardsGo chi cd (normalizeAdvancedShardsGo chi cd ss c).1 c).2 =
        (normalizeAdvancedShardsGo chi cd ss c).2 := by
  intro ss
  induction ss with
  | nil => intro c; exact ⟨rfl, rfl⟩
  | cons s ss ih =>
    intro c
    obtain ⟨hs1, hs2⟩ := advShard_idem chi cd s c
    obtain ⟨ih1, ih2⟩ := ih (normalizeAdvancedShard chi cd s c).2
    show ((normalizeAdvancedShardsGo chi cd
        ((normalizeAdvancedShard chi cd s c).1 ::
          (normalizeAdvancedShardsGo chi cd ss (normalizeAdvancedShard chi cd s c).2).1)
        c).1.map (fun s => s.Replicas) = _) ∧ _
    simp only [normalizeAdvancedShardsGo, List.map_cons]
    rw [hs2]
    exact ⟨by rw [hs1, ih1], ih2⟩

theorem counts_stable (l : ChiClusterLayout) (h1 : l.ShardsCount ≠ 0)
    (h2 : l.ReplicasCount ≠ 0) : normalizeClusterStandardLayoutCounts l = l := by
  rw [normalizeClusterStandardLayoutCounts_eq]
  simp [h1, h2]

theorem counts_pos (l : ChiClusterLayout) :
    (normalizeClusterStandardLayoutCounts l).ShardsCount ≠ 0 ∧
    (normalizeClusterStandardLayoutCounts l).ReplicasCount ≠ 0 := by
  rw [normalizeClusterStandardLayoutCounts_eq]
  by_cases h1 : l.ShardsCount = 0 <;> by_cases h2 : l.ReplicasCount = 0 <;> simp [h1, h2]

theorem standardShard_congr_layout (chi : ClickHouseInstallation)
    (l1 l2 : ChiClusterLayout) (h : l1.ReplicasCount = l2.ReplicasCount)
    (c : NamedNumber) :
    normalizeStandardShard chi l1 c = normalizeStandardShard chi l2 c := by
  unfold normalizeStandardShard
  rw [h]

theorem build_congr_layout (chi : ClickHouseInstallation) (l1 l2 : ChiClusterLayout)
    (h : l1.ReplicasCount = l2.ReplicasCount) :
    ∀ (n : Nat) (c : NamedNumber),
      buildStandardShardsGo chi l1 n c = buildStandardShardsGo chi l2 n c := by
  intro n
  induction n with
  | zero => intro c; rfl
  | succ n ih =>
    intro c
    simp only [buildStandardShardsGo, standardShard_congr_layout chi l1 l2 h, ih]

theorem ncc_std_char (chi : ClickHouseInstallation) (cluster : ChiCluster)
    (h : cluster.Layout.Type = clusterLayoutTypeStandard) :
    (normalizeSpecConfigurationClustersCluster chi cluster).1.Layout.ShardsCount =
      (normalizeClusterStandardLayoutCounts cluster.Layout).ShardsCount ∧
    (normalizeSpecConfigurationClustersCluster chi cluster).1.Layout.ReplicasCount =
      (normalizeClusterStandardLayoutCounts cluster.Layout).ReplicasCount ∧
    (normalizeSpecConfigurationClustersCluster chi cluster).1.Layout.Shards =
      (buildStandardShardsGo chi (normalizeClusterStandardLayoutCounts cluster.Layout)
        (normalizeClusterStandardLayoutCounts cluster.Layout).ShardsCount
        NamedNumber.empty).1 ∧
    (normalizeSpecConfigurationClustersCluster chi cluster).2 =
      (buildStandardShardsGo chi (normalizeClusterStandardLayoutCounts cluster.Layout)
        (normalizeClusterStandardLayoutCounts cluster.Layout).ShardsCount
        NamedNumber.empty).2 := by
  unfold normalizeSpecConfigurationClustersCluster
  simp only [h, reduceIte]
  exact ⟨trivial, trivial, trivial, trivial⟩

theorem ncc_adv_char (chi : ClickHouseInstallation) (cluster : ChiCluster)
    (h : cluster.Layout.Type = clusterLayoutTypeAdvanced) :
    (normalizeSpecConfigurationClustersCluster chi cluster).1.Deployment =
      deploymentMergeFrom cluster.Deployment chi.Spec.Defaults.Deployment ∧
    (normalizeSpecConfigurationClustersCluster chi cluster).1.Layout.Shards =
      (normalizeAdvancedShardsGo chi
        (deploymentMergeFrom cluster.Deployment chi.Spec.Defaults.Deployment)
        cluster.Layout.Shards NamedNumber.empty).1 ∧
    (normalizeSpecConfigurationClustersCluster chi cluster).2 =
      (normalizeAdvancedShardsGo chi
        (deploymentMergeFrom cluster.Deployment chi.Spec.Defaults.Deployment)
        cluster.Layout.Shards NamedNumber.empty).2 := by
  unfold normalizeSpecConfigurationClustersCluster
  simp [h, clusterLayoutTypeStandard, clusterLayoutTypeAdvanced]

theorem ncc_other_char (chi : ClickHouseInstallation) (cluster : ChiCluster)
    (h1 : ¬cluster.Layout.Type = clusterLayoutTypeStandard)
    (h2 : ¬cluster.Layout.Type = clusterLayoutTypeAdvanced) :
    (normalizeSpecConfigurationClustersCluster chi cluster).1.Deployment =
      deploymentMergeFrom cluster.Deployment chi.Spec.Defaults.Deployment ∧
    (normalizeSpecConfigurationClustersCluster chi cluster).1.Layout.Shards =
      cluster.Layout.Shards ∧
    (normalizeSpecConfigurationClustersCluster chi cluster).2 = NamedNumber.empty := by
  unfold normalizeSpecConfigurationClustersCluster
  simp only [h1, h2, reduceIte, if_false]
  exact ⟨trivial, trivial, trivial⟩

theorem ncc_idem (chi : ClickHouseInstallation) (cluster : ChiCluster) :
    ((normalizeSpecConfigurationClustersCluster chi
        (normalizeSpecConfigurationClustersCluster chi cluster).1).1.Layout.Shards.map
          (fun s => s.Replicas) =
      (normalizeSpecConfigurationClustersCluster chi cluster).1.Layout.Shards.map
        (fun s => s.Replicas)) ∧
    (normalizeSpecConfigurationClustersCluster chi
        (normalizeSpecConfigurationClustersCluster chi cluster).1).2 =
      (normalizeSpecConfigurationClustersCluster chi cluster).2 := by
  by_cases h1 : cluster.Layout.Type = clusterLayoutTypeStandard
  · have hT : (normalizeSpecConfigurationClustersCluster chi cluster).1.Layout.Type =
        clusterLayoutTypeStandard := by rw [normalizeCluster_type]; exact h1
    obtain ⟨sc1, rc1, sh1, u1⟩ := ncc_std_char chi cluster h1
    obtain ⟨sc2, rc2, sh2, u2⟩ := ncc_std_char chi
      (normalizeSpecConfigurationClustersCluster chi cluster).1 hT
    have hstable : normalizeClusterStandardLayoutCounts
        (normalizeSpecConfigurationClustersCluster chi cluster).1.Layout =
        (normalizeSpecConfigurationClustersCluster chi cluster).1.Layout := by
      apply counts_stable
      · rw [sc1]; exact (counts_pos cluster.Layout).1
      · rw [rc1]; exact (counts_pos cluster.Layout).2
    have hbuild : ∀ n c, buildStandardShardsGo chi
        (normalizeSpecConfigurationClustersCluster chi cluster).1.Layout n c =
        buildStandardShardsGo chi (normalizeClusterStandardLayoutCounts cluster.Layout) n c :=
      build_congr_layout chi _ _ rc1
    rw [sh2, u2, hstable, hbuild, sc1, sh1, u1]
    exact ⟨rfl, rfl⟩
  · by_cases h2 : cluster.Layout.Type = clusterLayoutTypeAdvanced
    · have hT : (normalizeSpecConfigurationClustersCluster chi cluster).1.Layout.Type =
          clusterLayoutTypeAdvanced := by rw [normalizeCluster_type]; exact h2
      obtain ⟨d1, sh1, u1⟩ := ncc_adv_char chi cluster h2
      obtain ⟨d2, sh2, u2⟩ := ncc_adv_char chi
        (normalizeSpecConfigurationClustersCluster chi cluster).1 hT
      have hdep : deploymentMergeFrom
          (normalizeSpecConfigurationClustersCluster chi cluster).1.Deployment
          chi.Spec.Defaults.Deployment =
          deploymentMergeFrom cluster.Deployment chi.Spec.Defaults.Deployment := by
        rw [d1]
        exact deploymentMergeFrom_idem _ _
      obtain ⟨g1, g2⟩ := advGo_idem chi
        (deploymentMergeFrom cluster.Deployment chi.Spec.Defaults.Deployment)
        cluster.Layout.Shards NamedNumber.empty
      rw [sh2, u2, hdep, sh1, u1]
      exact ⟨g1, g2⟩
    · have hT1 : ¬(normalizeSpecConfigurationClustersCluster chi cluster).1.Layout.Type =
          clusterLayoutTypeStandard := by rw [normalizeCluster_type]; exact h1
      have hT2 : ¬(normalizeSpecConfigurationClustersCluster chi cluster).1.Layout.Type =
          clusterLayoutTypeAdvanced := by rw [normalizeCluster_type]; exact h2
      obtain ⟨d1, sh1, u1⟩ := ncc_other_char chi cluster h1 h2
      obtain ⟨d2, sh2, u2⟩ := ncc_other_char chi
        (normalizeSpecConfigurationClustersCluster chi cluster).1 hT1 hT2
      rw [sh2, u2, u1]
      exact ⟨rfl, rfl⟩

theorem fqdn_stable (y : ClickHouseInstallation)
    (h : y.Spec.Defaults.ReplicasUseFQDN = 1 ∨ y.Spec.Defaults.ReplicasUseFQDN = 0) :
    normalizeSpecDefaultsReplicasUseFQDN y = y := by
  rcases h with h | h
  · simp [normalizeSpecDefaultsReplicasUseFQDN, h]
  · unfold normalizeSpecDefaultsReplicasUseFQDN
    rw [if_neg (by rw [h]; decide), ← h]

theorem scenario_stable (y : ClickHouseInstallation)
    (h : ¬y.Spec.Defaults.Deployment.Scenario = "") :
    normalizeSpecDefaultsDeploymentScenario y = y := by
  simp [normalizeSpecDefaultsDeploymentScenario, h]

theorem fqdnNorm_fqdn (x : ClickHouseInstallation) :
    (normalizeSpecDefaultsReplicasUseFQDN x).Spec.Defaults.ReplicasUseFQDN = 1 ∨
    (normalizeSpecDefaultsReplicasUseFQDN x).Spec.Defaults.ReplicasUseFQDN = 0 := by
  unfold normalizeSpecDefaultsReplicasUseFQDN
  by_cases h : x.Spec.Defaults.ReplicasUseFQDN = 1 <;> simp [h]

theorem fqdnNorm_scenario (x : ClickHouseInstallation) :
    (normalizeSpecDefaultsReplicasUseFQDN x).Spec.Defaults.Deployment.Scenario =
      x.Spec.Defaults.Deployment.Scenario := by
  unfold normalizeSpecDefaultsReplicasUseFQDN
  by_cases h : x.Spec.Defaults.ReplicasUseFQDN = 1 <;> simp [h]

theorem scenNorm_fqdn (x : ClickHouseInstallation) :
    (normalizeSpecDefaultsDeploymentScenario x).Spec.Defaults.ReplicasUseFQDN =
      x.Spec.Defaults.ReplicasUseFQDN := by
  unfold normalizeSpecDefaultsDeploymentScenario
  by_cases h : x.Spec.Defaults.Deployment.Scenario = "" <;> simp [h]

theorem scenNorm_scenario (x : ClickHouseInstallation) :
    (normalizeSpecDefaultsDeploymentScenario x).Spec.Defaults.Deployment.Scenario =
      (if x.Spec.Defaults.Deployment.Scenario = "" then deploymentScenarioDefault
       else x.Spec.Defaults.Deployment.Scenario) := by
  unfold normalizeSpecDefaultsDeploymentScenario
  by_cases h : x.Spec.Defaults.Deployment.Scenario = "" <;> simp [h]

theorem defaulted_fqdn_val (x : ClickHouseInstallation) :
    (defaultedCHI x).Spec.Defaults.ReplicasUseFQDN = 1 ∨
    (defaultedCHI x).Spec.Defaults.ReplicasUseFQDN = 0 := by
  unfold defaultedCHI
  rw [scenNorm_fqdn]
  exact fqdnNorm_fqdn x

theorem defaulted_scenario_ne (x : ClickHouseInstallation) :
    ¬(defaultedCHI x).Spec.Defaults.Deployment.Scenario = "" := by
  unfold defaultedCHI
  rw [scenNorm_scenario]
  by_cases h : (normalizeSpecDefaultsReplicasUseFQDN x).Spec.Defaults.Deployment.Scenario
      = "" <;>
    simp [h, deploymentScenarioDefault]

theorem fp_congr_chi (chi1 chi2 : ClickHouseInstallation)
    (hNs : chi1.Namespace = chi2.Namespace) (hName : chi1.Name = chi2.Name) :
    ∀ d : ChiDeployment,
      deploymentGenerateFingerprint chi1 d = deploymentGenerateFingerprint chi2 d :=
  fun d => deploymentGenerateFingerprint_congr chi1 chi2 d d hNs hName rfl

theorem replicaOne_congr_chi (chi1 chi2 : ClickHouseInstallation)
    (hNs : chi1.Namespace = chi2.Namespace) (hName : chi1.Name = chi2.Name) :
    ∀ (sd : ChiDeployment) (r : ChiClusterLayoutShardReplica) (c : NamedNumber),
      normalizeReplicaOne chi1 sd r c = normalizeReplicaOne chi2 sd r c := by
  intro sd r c
  simp only [normalizeReplicaOne, fp_congr_chi chi1 chi2 hNs hName]

theorem go_congr_chi (chi1 chi2 : ClickHouseInstallation)
    (hNs : chi1.Namespace = chi2.Namespace) (hName : chi1.Name = chi2.Name)
    (sd : ChiDeployment) :
    ∀ (rs : List ChiClusterLayoutShardReplica) (c : NamedNumber),
      normalizeReplicasGo chi1 sd rs c = normalizeReplicasGo chi2 sd rs c := by
  intro rs
  induction rs with
  | nil => intro c; simp only [normalizeReplicasGo]
  | cons r rs ih =>
    intro c
    simp only [normalizeReplicasGo, replicaOne_congr_chi chi1 chi2 hNs hName, ih]

theorem wrapper_congr_chi (chi1 chi2 : ClickHouseInstallation)
    (hNs : chi1.Namespace = chi2.Namespace) (hName : chi1.Name = chi2.Name) :
    ∀ (shard : ChiClusterLayoutShard) (c : NamedNumber),
      normalizeSpecConfigurationClustersLayoutShardsReplicas chi1 shard c =
        normalizeSpecConfigurationClustersLayoutShardsReplicas chi2 shard c := by
  intro shard c
  simp only [wrapper_char, go_congr_chi chi1 chi2 hNs hName]

theorem standardShard_congr_chi (chi1 chi2 : ClickHouseInstallation)
    (hNs : chi1.Namespace = chi2.Namespace) (hName : chi1.Name = chi2.Name) :
    ∀ (layout : ChiClusterLayout) (c : NamedNumber),
      normalizeStandardShard chi1 layout c = normalizeStandardShard chi2 layout c := by
  intro layout c
  unfold normalizeStandardShard
  rw [wrapper_congr_chi chi1 chi2 hNs hName]

theorem build_congr_chi (chi1 chi2 : ClickHouseInstallation)
    (hNs : chi1.Namespace = chi2.Namespace) (hName : chi1.Name = chi2.Name)
    (layout : ChiClusterLayout) :
    ∀ (n : Nat) (c : NamedNumber),
      buildStandardShardsGo chi1 layout n c = buildStandardShardsGo chi2 layout n c := by
  intro n
  induction n with
  | zero => intro c; rfl
  | succ n ih =>
    intro c
    simp only [buildStandardShardsGo, standardShard_congr_chi chi1 chi2 hNs hName, ih]

theorem advShard_congr_chi (chi1 chi2 : ClickHouseInstallation)
    (hNs : chi1.Namespace = chi2.Namespace) (hName : chi1.Name = chi2.Name)
    (cd : ChiDeployment) :
    ∀ (s : ChiClusterLayoutShard) (c : NamedNumber),
      normalizeAdvancedShard chi1 cd s c = normalizeAdvancedShard chi2 cd s c := by
  intro s c
  simp only [normalizeAdvancedShard, wrapper_congr_chi chi1 chi2 hNs hName]

theorem advGo_congr_chi (chi1 chi2 : ClickHouseInstallation)
    (hNs : chi1.Namespace = chi2.Namespace) (hName : chi1.Name = chi2.Name)
    (cd : ChiDeployment) :
    ∀ (ss : List ChiClusterLayoutShard) (c : NamedNumber),
      normalizeAdvancedShardsGo chi1 cd ss c = normalizeAdvancedShardsGo chi2 cd ss c := by
  intro ss
  induction ss with
  | nil => intro c; rfl
  | cons s ss ih =>
    intro c
    simp only [normalizeAdvancedShardsGo, advShard_congr_chi chi1 chi2 hNs hName, ih]

theorem ncc_congr_chi (chi1 chi2 : ClickHouseInstallation)
    (hNs : chi1.Namespace = chi2.Namespace) (hName : chi1.Name = chi2.Name)
    (hD : chi1.Spec.Defaults.Deployment = chi2.Spec.Defaults.Deployment) :
    ∀ cluster : ChiCluster,
      normalizeSpecConfigurationClustersCluster chi1 cluster =
        normalizeSpecConfigurationClustersCluster chi2 cluster := by
  intro cluster
  unfold normalizeSpecConfigurationClustersCluster
  simp only [hD, build_congr_chi chi1 chi2 hNs hName, advGo_congr_chi chi1 chi2 hNs hName]

theorem defaulted_stable_chi1 (chi : ClickHouseInstallation) :
    defaultedCHI (NormalizeCHI chi).1 = (NormalizeCHI chi).1 := by
  unfold defaultedCHI
  rw [fqdn_stable (NormalizeCHI chi).1 (defaulted_fqdn_val chi),
    scenario_stable (NormalizeCHI chi).1 (defaulted_scenario_ne chi)]

/-- C8: normalization is idempotent and stable where it matters — applying
the full pipeline (`NormalizeCHI`) a second time, to the already-normalized
tree (equivalently, in this pure embedding, to a structurally identical
copy), assigns exactly the same `Fingerprint` and `Index` to every replica
of every shard of every cluster and returns the same usage map as the first
run. -/
theorem claim_C8_idem (chi : ClickHouseInstallation) :
    chiFingerprintsIndices (NormalizeCHI (NormalizeCHI chi).1).1 =
      chiFingerprintsIndices (NormalizeCHI chi).1 ∧
    ∀ F : String, (NormalizeCHI (NormalizeCHI chi).1).2 F = (NormalizeCHI chi).2 F := by
  have hclusters2 : (NormalizeCHI (NormalizeCHI chi).1).1.Spec.Configuration.Clusters =
      ((defaultedCHI chi).Spec.Configuration.Clusters.map
        (fun c => (normalizeSpecConfigurationClustersCluster (defaultedCHI chi) c).1)).map
        (fun c => (normalizeSpecConfigurationClustersCluster (defaultedCHI chi) c).1) := by
    rw [normalizeCHI_clusters (NormalizeCHI chi).1, defaulted_stable_chi1 chi,
      normalizeCHI_clusters chi]
    apply List.map_congr_left
    intro c0 _
    rw [ncc_congr_chi (NormalizeCHI chi).1 (defaultedCHI chi) rfl rfl rfl]
  constructor
  · unfold chiFingerprintsIndices
    rw [hclusters2, normalizeCHI_clusters chi]
    simp only [List.map_map]
    apply List.map_congr_left
    intro c0 _
    simp only [Function.comp_apply]
    have hmap := (ncc_idem (defaultedCHI chi) c0).1
    have : ∀ sh : List ChiClusterLayoutShard,
        sh.map (fun s => s.Replicas.map
          (fun r => (r.Deployment.Fingerprint, r.Deployment.Index))) =
        (sh.map (fun s => s.Replicas)).map (fun l => l.map
          (fun r => (r.Deployment.Fingerprint, r.Deployment.Index))) := by
      intro sh
      rw [List.map_map]
      rfl
    rw [this, this, hmap]
  · intro F
    have e2 : (NormalizeCHI (NormalizeCHI chi).1).2 F =
        ((defaultedCHI (NormalizeCHI chi).1).Spec.Configuration.Clusters.map
          (fun c => (normalizeSpecConfigurationClustersCluster
            (defaultedCHI (NormalizeCHI chi).1) c).2 F)).foldl max 0 := by
      show (normalizeClustersGo (defaultedCHI (NormalizeCHI chi).1)
        (defaultedCHI (NormalizeCHI chi).1).Spec.Configuration.Clusters
        NamedNumber.empty).2 F = _
      rw [normalizeClustersGo_usage]
      rfl
    have e1 : (NormalizeCHI chi).2 F =
        ((defaultedCHI chi).Spec.Configuration.Clusters.map
          (fun c => (normalizeSpecConfigurationClustersCluster (defaultedCHI chi) c).2
            F)).foldl max 0 := by
      show (normalizeClustersGo (defaultedCHI chi)
        (defaultedCHI chi).Spec.Configuration.Clusters NamedNumber.empty).2 F = _
      rw [normalizeClustersGo_usage]
      rfl
    rw [e2, e1, defaulted_stable_chi1 chi, normalizeCHI_clusters chi]
    simp only [List.map_map]
    congr 1
    apply List.map_congr_left
    intro c0 _
    simp only [Function.comp_apply]
    rw [ncc_congr_chi (NormalizeCHI chi).1 (defaultedCHI chi) rfl rfl rfl]
    rw [(ncc_idem (defaultedCHI chi) c0).2]
